import Mathlib

/-!
# league_code_test: CSV matrix validation and the five matrix handlers

A shallow embedding of `utils.go` (`ParseCSVFile`, `ValidateSquareMatrix`) and
`main.go` (`EchoHandler`, `InvertHandler`, `FlattenHandler`, `SumHandler`,
`MultiplyHandler`).

Modelling conventions.

* A Go `string` is a Lean `String`; `[]string` and `[][]string` are lists.
* Go `int` is the 64-bit signed integer: values are `Int`, and every `int`
  operation that can leave the range is followed by `wrapInt`.
* Go `error` values are rendered eagerly by `fmt.Errorf` in the source, so an
  `error` is its message: `Option String` (`none` is `nil`).
* `strconv.Atoi`, `strings.Join`, `http.Error` and the `fmt` verbs belong to the
  Go standard library; they are modelled here after the library sources.
  `strconv.Quote`, which only decorates the text of a parse failure, is taken
  as a parameter `Quote`.
* A run-time panic (slice index out of range) is `none` in an `Option` result.
-/

namespace League

/-! ## Native integers -/

/-- Two's-complement reduction of a mathematical integer into the range of the
Go `int` type on a 64-bit target (`strconv.IntSize = 64`), `[-2^63, 2^63 - 1]`. -/
def wrapInt (x : Int) : Int := (x + 2 ^ 63) % 2 ^ 64 - 2 ^ 63

/-- The Go conversion `int64(x)` of an `int`. -/
def int64 (x : Int) : Int := wrapInt x

/-- Largest `uint64`. -/
def maxUint64 : Nat := 2 ^ 64 - 1

/-- Decimal rendering of an integer, as produced by the `%d` verb, by
`fmt.Fprintln` on an `int` and by `(*big.Int).String`: an optional `-` followed
by the decimal digits of the magnitude. -/
def FormatInt : Int → String
  | Int.ofNat n => String.mk (Nat.toDigits 10 n)
  | Int.negSucc n => "-" ++ String.mk (Nat.toDigits 10 (n + 1))

/-! ## strconv -/

/-- The sentinel errors `strconv.ErrSyntax` and `strconv.ErrRange`. -/
inductive ConvErr where
  | ErrSyntax
  | ErrRange
  deriving DecidableEq

/-- Text of a sentinel error. -/
def ConvErr.Error : ConvErr → String
  | ConvErr.ErrSyntax => "invalid syntax"
  | ConvErr.ErrRange => "value out of range"

/-- Go `strconv.NumError`: the failing function, the input and the reason. -/
structure NumError where
  Func : String
  Num : String
  Err : ConvErr
  deriving DecidableEq

/-- Go `(*NumError).Error`; `Quote` stands for `strconv.Quote`. -/
def NumError.Error (Quote : String → String) (e : NumError) : String :=
  "strconv." ++ e.Func ++ ": parsing " ++ Quote e.Num ++ ": " ++ e.Err.Error

/-- What `strconv.Quote` returns on a text of printable ASCII characters with
no double quote and no backslash: the text between double quotes. It is the
instance of `Quote` used at concrete inputs. -/
def quoteASCII (s : String) : String := "\"" ++ s ++ "\""

/-- Go `strconv.syntaxError`. -/
def syntaxError (fn str : String) : NumError := NumError.mk fn str ConvErr.ErrSyntax

/-- Go `strconv.rangeError`. -/
def rangeError (fn str : String) : NumError := NumError.mk fn str ConvErr.ErrRange

/-- The digit loop of `strconv.ParseUint` for base 10 and bit size 64, with the
accumulator `n : uint64`. A byte that is not a decimal digit is a syntax error
(letters denote digits that are at least the base); the two overflow tests are
those of the library. Bytes of a multi-byte character are all above `0x7f`, so
reading characters instead of bytes gives the same outcome. -/
def ParseUintLoop (s0 : String) : List Char → Nat → Nat × Option NumError
  | [], n => (n, none)
  | c :: cs, n =>
    if c.isDigit then
      if n ≥ maxUint64 / 10 + 1 then (maxUint64, some (rangeError "ParseUint" s0))
      else
        let n10 := (n * 10) % 2 ^ 64
        let n1 := (n10 + (c.toNat - 48)) % 2 ^ 64
        if n1 < n10 ∨ n1 > maxUint64 then (maxUint64, some (rangeError "ParseUint" s0))
        else ParseUintLoop s0 cs n1
    else (0, some (syntaxError "ParseUint" s0))

/-- Go `strconv.ParseUint(s, 10, 0)`. -/
def ParseUint (s : String) : Nat × Option NumError :=
  if s = "" then (0, some (syntaxError "ParseUint" s))
  else ParseUintLoop s s.data 0

/-- Go `strconv.ParseInt(s, 10, 0)`: pick off the sign, convert the magnitude,
check it against `1 << 63`. -/
def ParseInt (s : String) : Int × Option NumError :=
  if s = "" then (0, some (syntaxError "ParseInt" s))
  else
    let neg : Bool := s.data.head? == some '-'
    let rest : String :=
      if s.data.head? == some '+' || s.data.head? == some '-' then String.mk s.data.tail else s
    let r := ParseUint rest
    match r.2 with
    | some (NumError.mk _ _ ConvErr.ErrSyntax) => (0, some (NumError.mk "ParseInt" s ConvErr.ErrSyntax))
    | _ =>
      let un := r.1
      let cutoff : Nat := 2 ^ 63
      if !neg && un ≥ cutoff then ((cutoff : Int) - 1, some (rangeError "ParseInt" s))
      else if neg && un > cutoff then (-(cutoff : Int), some (rangeError "ParseInt" s))
      else (if neg then wrapInt (-(wrapInt un)) else wrapInt un, none)

/-- The digit loop of the fast path of `strconv.Atoi`, with the accumulator
`n : int`; `none` is the syntax error raised at a byte that is not a digit. -/
def AtoiFastLoop : List Char → Int → Option Int
  | [], n => some n
  | c :: cs, n =>
    if c.isDigit then AtoiFastLoop cs (wrapInt (n * 10 + ((c.toNat - 48 : Nat) : Int)))
    else none

/-- Go `strconv.Atoi` on a 64-bit target. The result is the pair `(value, err)`
that Go returns; `err = none` is `nil`. Inputs of 1 to 18 bytes take the fast
path, all others go through `ParseInt` and have the error renamed to `Atoi`. -/
def Atoi (s : String) : Int × Option NumError :=
  if 0 < s.utf8ByteSize ∧ s.utf8ByteSize < 19 then
    let signed : Bool := s.data.head? == some '-' || s.data.head? == some '+'
    let digits : List Char := if signed then s.data.tail else s.data
    if signed && digits.length < 1 then (0, some (syntaxError "Atoi" s))
    else
      match AtoiFastLoop digits 0 with
      | none => (0, some (syntaxError "Atoi" s))
      | some n => (if s.data.head? == some '-' then wrapInt (-n) else n, none)
  else
    let r := ParseInt s
    (wrapInt r.1, r.2.map (fun e => NumError.mk "Atoi" e.Num e.Err))

/-- The natural number written by a sequence of decimal digits, most
significant first. -/
def digitsValue (cs : List Char) : Nat :=
  cs.foldl (fun n c => n * 10 + (c.toNat - 48)) 0

/-- The mathematical integer that the text of a cell denotes: an optional
leading `+` or `-` followed by decimal digits. It is the value meant by
"the sum" and "the product of all cell values". -/
def cellValue (s : String) : Int :=
  match s.data with
  | '-' :: cs => -((digitsValue cs : Nat) : Int)
  | '+' :: cs => ((digitsValue cs : Nat) : Int)
  | cs => ((digitsValue cs : Nat) : Int)

/-- One or more ASCII decimal digits. -/
def isDigits (cs : List Char) : Bool :=
  !cs.isEmpty && cs.all Char.isDigit

/-- The shape of a decimal numeral: an optional single leading `+` or `-`
followed by one or more ASCII decimal digits. -/
def isDecimalNumeral (s : String) : Bool :=
  match s.data with
  | '-' :: cs => isDigits cs
  | '+' :: cs => isDigits cs
  | cs => isDigits cs

/-- The arithmetic sum of all cell values of a grid, in the integers. -/
def exactSum (records : List (List String)) : Int :=
  (records.flatten.map cellValue).sum

/-- The arithmetic product of all cell values of a grid, in the integers. -/
def exactProduct (records : List (List String)) : Int :=
  (records.flatten.map cellValue).prod

/-! ## strings -/

/-- Go `strings.Join`. -/
def Join (elems : List String) (sep : String) : String :=
  match elems with
  | [] => ""
  | [e] => e
  | e :: rest => rest.foldl (fun b s => b ++ sep ++ s) e

/-- The pieces of a text between the occurrences of the character `sep`, in
order; a text without `sep` is a single piece. -/
def splitChars (sep : Char) : List Char → List (List Char)
  | [] => [[]]
  | c :: cs =>
    if c = sep then [] :: splitChars sep cs
    else
      match splitChars sep cs with
      | [] => [[c]]
      | piece :: pieces => (c :: piece) :: pieces

/-- Go `strings.Split` for a separator of one character: the tokens a reader
of the Flatten line obtains by splitting it at `sep`. -/
def Split (s : String) (sep : Char) : List String :=
  (splitChars sep s.data).map String.mk

/-! ## utils.go -/

/-- What the two library calls of `ParseCSVFile` yield for a request:
`r.FormFile("file")` fails with a cause, or `reader.ReadAll()` (with
`FieldsPerRecord = -1`) fails with a cause, or it returns the records. -/
inductive Request where
  | formFileError (cause : String)
  | readAllError (cause : String)
  | records (rows : List (List String))

/-- Go `ParseCSVFile`. -/
def ParseCSVFile (r : Request) : Except String (List (List String)) :=
  match r with
  | Request.formFileError cause => Except.error ("failed to read file: " ++ cause)
  | Request.readAllError cause => Except.error ("failed to parse csv: " ++ cause)
  | Request.records rows =>
    if rows.length = 0 then Except.error "failed to parse csv: file is empty"
    else Except.ok rows

/-- First loop of `ValidateSquareMatrix`: the header check of `records[0]`,
started at column index `j`. -/
def ValidateSquareMatrix.headerLoop (Quote : String → String) :
    Nat → List String → Option String
  | _, [] => none
  | j, val :: rest =>
    match (Atoi val).2 with
    | some err =>
      some ("matrix has a header row or non-integer value at row 1, column "
        ++ FormatInt ((j : Int) + 1) ++ ": " ++ err.Error Quote)
    | none => ValidateSquareMatrix.headerLoop Quote (j + 1) rest

/-- Inner loop of `ValidateSquareMatrix` over the cells of row index `i`,
started at column index `j`. -/
def ValidateSquareMatrix.cellLoop (Quote : String → String) (i : Nat) :
    Nat → List String → Option String
  | _, [] => none
  | j, val :: rest =>
    if val = "" then
      some ("matrix has empty value at row " ++ FormatInt ((i : Int) + 1)
        ++ ", column " ++ FormatInt ((j : Int) + 1))
    else
      match (Atoi val).2 with
      | some err =>
        some ("matrix value at row " ++ FormatInt ((i : Int) + 1) ++ ", column "
          ++ FormatInt ((j : Int) + 1) ++ " is not an integer: " ++ err.Error Quote)
      | none => ValidateSquareMatrix.cellLoop Quote i (j + 1) rest

/-- Outer loop of `ValidateSquareMatrix` over the rows, started at row index
`i`; `n` is the length of the first row. -/
def ValidateSquareMatrix.rowLoop (Quote : String → String) (n : Nat) :
    Nat → List (List String) → Option String
  | _, [] => none
  | i, row :: rest =>
    if row.length ≠ n then
      some ("matrix is not square: row " ++ FormatInt ((i : Int) + 1) ++ " has "
        ++ FormatInt (row.length : Int) ++ " columns, expected " ++ FormatInt (n : Int))
    else
      match ValidateSquareMatrix.cellLoop Quote i 0 row with
      | some e => some e
      | none => ValidateSquareMatrix.rowLoop Quote n (i + 1) rest

/-- Go `ValidateSquareMatrix`; `none` is the `nil` error. -/
def ValidateSquareMatrix (Quote : String → String) (records : List (List String)) :
    Option String :=
  match records with
  | [] => some "empty matrix"
  | row0 :: _ =>
    let n := row0.length
    match ValidateSquareMatrix.headerLoop Quote 0 row0 with
    | some e => some e
    | none =>
      match ValidateSquareMatrix.rowLoop Quote n 0 records with
      | some e => some e
      | none =>
        if records.length ≠ n then
          some ("matrix is not square: " ++ FormatInt (records.length : Int) ++ " rows and "
            ++ FormatInt (n : Int) ++ " columns")
        else none

/-- The validator with the main loop started at the second row: the same
checks as `ValidateSquareMatrix`, except that row 0 is looked at by the header
loop only. It is the reference against which the re-check of row 0 in
`ValidateSquareMatrix` is compared. -/
def ValidateSquareMatrixSkipRow0 (Quote : String → String) (records : List (List String)) :
    Option String :=
  match records with
  | [] => some "empty matrix"
  | row0 :: rest =>
    let n := row0.length
    match ValidateSquareMatrix.headerLoop Quote 0 row0 with
    | some e => some e
    | none =>
      match ValidateSquareMatrix.rowLoop Quote n 1 rest with
      | some e => some e
      | none =>
        if records.length ≠ n then
          some ("matrix is not square: " ++ FormatInt (records.length : Int) ++ " rows and "
            ++ FormatInt (n : Int) ++ " columns")
        else none

/-! ## main.go -/

/-- An HTTP response as the handlers leave it: the status code and the body. -/
structure Response where
  status : Nat
  body : String
  deriving DecidableEq

/-- Go `http.Error(w, msg, code)`: the status `code` and the message printed
with `fmt.Fprintln`. -/
def httpError (msg : String) (code : Nat) : Response := Response.mk code (msg ++ "\n")

/-- Go `fmt.Fprint(w, s)` on a fresh response writer: status 200 and body `s`. -/
def writeOK (s : String) : Response := Response.mk 200 s

/-- The response loop shared by `EchoHandler` and `InvertHandler`:
`response = fmt.Sprintf("%s%s\n", response, strings.Join(row, ","))` for each
row, starting from the empty string. -/
def buildResponse (records : List (List String)) : String :=
  records.foldl (fun response row => response ++ Join row "," ++ "\n") ""

/-- Go `EchoHandler`. -/
def EchoHandler (Quote : String → String) (r : Request) : Response :=
  match ParseCSVFile r with
  | Except.error err => httpError err 400
  | Except.ok records =>
    match ValidateSquareMatrix Quote records with
    | some err => httpError err 400
    | none => writeOK (buildResponse records)

/-- The cell `m[i][j]` of a grid, when row `i` exists and has a column `j`. -/
def cellAt (m : List (List String)) (i j : Nat) : Option String :=
  (m[i]?).bind (fun row => row[j]?)

/-- Inner loop of the third step of `InvertHandler`:
`invertedRecords[idx] = append(invertedRecords[idx], num)` for the cells of one
row from column index `idx` on; `none` is the index-out-of-range panic. -/
def invertRow : Nat → List String → List (List String) → Option (List (List String))
  | _, [], inv => some inv
  | idx, num :: rest, inv =>
    match inv[idx]? with
    | none => none
    | some col => invertRow (idx + 1) rest (inv.set idx (col ++ [num]))

/-- Outer loop of the third step of `InvertHandler`. -/
def invertRows : List (List String) → List (List String) → Option (List (List String))
  | [], inv => some inv
  | row :: rest, inv =>
    match invertRow 0 row inv with
    | none => none
    | some inv1 => invertRows rest inv1

/-- Third step of `InvertHandler`: `invertedRecords`, made with
`len(records)` empty rows and filled by the two loops. -/
def invert (records : List (List String)) : Option (List (List String)) :=
  invertRows records (List.replicate records.length [])

/-- Go `InvertHandler`; `none` is a panic of the handler. -/
def InvertHandler (Quote : String → String) (r : Request) : Option Response :=
  match ParseCSVFile r with
  | Except.error err => some (httpError err 400)
  | Except.ok records =>
    match ValidateSquareMatrix Quote records with
    | some err => some (httpError err 400)
    | none =>
      match invert records with
      | none => none
      | some invertedRecords => some (writeOK (buildResponse invertedRecords))

/-- Third step of `FlattenHandler`: `flattened = append(flattened, row...)`
for each row. -/
def flatten (records : List (List String)) : List String :=
  records.foldl (fun flattened row => flattened ++ row) []

/-- Go `FlattenHandler`. -/
def FlattenHandler (Quote : String → String) (r : Request) : Response :=
  match ParseCSVFile r with
  | Except.error err => httpError err 400
  | Except.ok records =>
    match ValidateSquareMatrix Quote records with
    | some err => httpError err 400
    | none => writeOK (Join (flatten records) "," ++ "\n")

/-- Third step of `SumHandler`: `sum += num` in Go `int` arithmetic, the error
of `strconv.Atoi` discarded. -/
def sumCells (records : List (List String)) : Int :=
  records.foldl (fun sum row => row.foldl (fun sum val => wrapInt (sum + (Atoi val).1)) sum) 0

/-- Go `SumHandler`. -/
def SumHandler (Quote : String → String) (r : Request) : Response :=
  match ParseCSVFile r with
  | Except.error err => httpError err 400
  | Except.ok records =>
    match ValidateSquareMatrix Quote records with
    | some err => httpError err 400
    | none => writeOK (FormatInt (sumCells records) ++ "\n")

/-- Third step of `MultiplyHandler`:
`product.Mul(product, big.NewInt(int64(num)))` on arbitrary-precision integers,
the error of `strconv.Atoi` discarded. -/
def productCells (records : List (List String)) : Int :=
  records.foldl
    (fun product row => row.foldl (fun product val => product * int64 (Atoi val).1) product) 1

/-- Go `MultiplyHandler`. -/
def MultiplyHandler (Quote : String → String) (r : Request) : Response :=
  match ParseCSVFile r with
  | Except.error err => httpError err 400
  | Except.ok records =>
    match ValidateSquareMatrix Quote records with
    | some err => httpError err 400
    | none => writeOK (FormatInt (productCells records) ++ "\n")


/-! ## Validation: when the loops report nothing -/

theorem Atoi_empty : (Atoi "").2 = some (syntaxError "Atoi" "") := by decide

theorem headerLoop_eq_none_iff (Quote : String → String) (row : List String) (j : Nat) :
    ValidateSquareMatrix.headerLoop Quote j row = none ↔ ∀ val ∈ row, (Atoi val).2 = none := by
  induction row generalizing j with
  | nil => simp [ValidateSquareMatrix.headerLoop]
  | cons val rest ih =>
    unfold ValidateSquareMatrix.headerLoop
    cases h : (Atoi val).2 with
    | none => simp [h, ih]
    | some err => simp [h]

theorem cellLoop_eq_none_iff (Quote : String → String) (row : List String) (i j : Nat) :
    ValidateSquareMatrix.cellLoop Quote i j row = none ↔
      ∀ val ∈ row, val ≠ "" ∧ (Atoi val).2 = none := by
  induction row generalizing j with
  | nil => simp [ValidateSquareMatrix.cellLoop]
  | cons val rest ih =>
    unfold ValidateSquareMatrix.cellLoop
    by_cases hv : val = ""
    · simp [hv]
    · cases h : (Atoi val).2 with
      | none => simp [hv, h, ih]
      | some err => simp [hv, h]

theorem rowLoop_eq_none_iff (Quote : String → String) (n : Nat) (rows : List (List String))
    (i : Nat) :
    ValidateSquareMatrix.rowLoop Quote n i rows = none ↔
      ∀ row ∈ rows, row.length = n ∧ ∀ val ∈ row, val ≠ "" ∧ (Atoi val).2 = none := by
  induction rows generalizing i with
  | nil => simp [ValidateSquareMatrix.rowLoop]
  | cons row rest ih =>
    unfold ValidateSquareMatrix.rowLoop
    by_cases hl : row.length = n
    · cases h : ValidateSquareMatrix.cellLoop Quote i 0 row with
      | none =>
        have h1 := (cellLoop_eq_none_iff Quote row i 0).1 h
        simp [hl, ih]
        intro _
        exact h1
      | some e =>
        have h1 : ¬ ∀ val ∈ row, val ≠ "" ∧ (Atoi val).2 = none := by
          intro hc
          rw [(cellLoop_eq_none_iff Quote row i 0).2 hc] at h
          cases h
        simp [hl]
        intro hc
        exact absurd hc h1
    · simp [hl]

theorem Atoi_ok_ne_empty (val : String) (h : (Atoi val).2 = none) : val ≠ "" := by
  intro hv
  rw [hv, Atoi_empty] at h
  cases h

/-- What acceptance by `ValidateSquareMatrix` says about the grid. -/
theorem validate_accepts (Quote : String → String) (records : List (List String))
    (h : ValidateSquareMatrix Quote records = none) :
    1 ≤ records.length ∧ (∀ row ∈ records, row.length = records.length) ∧
      ∀ row ∈ records, ∀ val ∈ row, (Atoi val).2 = none := by
  cases records with
  | nil => simp [ValidateSquareMatrix] at h
  | cons row0 rest =>
    unfold ValidateSquareMatrix at h
    cases hh : ValidateSquareMatrix.headerLoop Quote 0 row0 with
    | some e => simp [hh] at h
    | none =>
      cases hr : ValidateSquareMatrix.rowLoop Quote row0.length 0 (row0 :: rest) with
      | some e => simp [hh, hr] at h
      | none =>
        simp only [hh, hr] at h
        have hlen : (row0 :: rest).length = row0.length := by
          by_contra hne
          rw [if_pos hne] at h
          cases h
        have hrows := (rowLoop_eq_none_iff Quote row0.length (row0 :: rest) 0).1 hr
        refine ⟨by simp, ?_, ?_⟩
        · intro row hrow
          rw [hlen]
          exact (hrows row hrow).1
        · intro row hrow val hval
          exact ((hrows row hrow).2 val hval).2

/-- C1: `ValidateSquareMatrix` returns no error exactly when the grid has
`N ≥ 1` rows, every row has exactly `N` cells and every cell is accepted by
`strconv.Atoi`; and a grid whose cells are all accepted has no empty cell. -/
theorem C1_validate_accepts_iff (Quote : String → String) (records : List (List String)) :
    (ValidateSquareMatrix Quote records = none ↔
      1 ≤ records.length ∧ (∀ row ∈ records, row.length = records.length) ∧
        ∀ row ∈ records, ∀ val ∈ row, (Atoi val).2 = none) ∧
    ((∀ row ∈ records, ∀ val ∈ row, (Atoi val).2 = none) →
      ∀ row ∈ records, ∀ val ∈ row, val ≠ "") := by
  refine ⟨⟨validate_accepts Quote records, ?_⟩, ?_⟩
  · rintro ⟨hpos, hsq, hcells⟩
    cases records with
    | nil => simp at hpos
    | cons row0 rest =>
      have hlen : row0.length = (row0 :: rest).length := hsq row0 (by simp)
      have hh : ValidateSquareMatrix.headerLoop Quote 0 row0 = none :=
        (headerLoop_eq_none_iff Quote row0 0).2 (hcells row0 (by simp))
      have hr : ValidateSquareMatrix.rowLoop Quote row0.length 0 (row0 :: rest) = none := by
        apply (rowLoop_eq_none_iff Quote row0.length (row0 :: rest) 0).2
        intro row hrow
        refine ⟨by rw [hsq row hrow, hlen], ?_⟩
        intro val hval
        exact ⟨Atoi_ok_ne_empty val (hcells row hrow val hval), hcells row hrow val hval⟩
      unfold ValidateSquareMatrix
      simp only [hh, hr]
      simp [← hlen]
  · intro h row hrow val hval
    exact Atoi_ok_ne_empty val (h row hrow val hval)


/-! ## Echo and Flatten -/

theorem intercalate_go_eq_foldl (sep : String) (rest : List String) (acc : String) :
    String.intercalate.go acc sep rest = rest.foldl (fun b s => b ++ sep ++ s) acc := by
  induction rest generalizing acc with
  | nil => rfl
  | cons a as ih => simp [String.intercalate.go, ih]

theorem Join_eq_intercalate (elems : List String) (sep : String) :
    Join elems sep = String.intercalate sep elems := by
  cases elems with
  | nil => rfl
  | cons e rest =>
    cases rest with
    | nil => rfl
    | cons a as => simp [Join, String.intercalate, intercalate_go_eq_foldl]

theorem foldl_rows_eq (records : List (List String)) (acc : String) :
    records.foldl (fun response row => response ++ Join row "," ++ "\n") acc =
      (records.map (fun row => String.intercalate "," row ++ "\n")).foldl
        (fun r s => r ++ s) acc := by
  induction records generalizing acc with
  | nil => rfl
  | cons row rest ih =>
    simp only [List.foldl_cons, List.map_cons]
    rw [ih, Join_eq_intercalate, String.append_assoc]

theorem buildResponse_eq (records : List (List String)) :
    buildResponse records =
      String.join (records.map (fun row => String.intercalate "," row ++ "\n")) := by
  unfold buildResponse String.join
  exact foldl_rows_eq records ""

theorem foldl_append_eq_flatten (records : List (List String)) (acc : List String) :
    records.foldl (fun flattened row => flattened ++ row) acc = acc ++ records.flatten := by
  induction records generalizing acc with
  | nil => simp
  | cons row rest ih => simp [ih]

theorem flatten_eq (records : List (List String)) : flatten records = records.flatten := by
  unfold flatten
  simpa using foldl_append_eq_flatten records []

/-- C2: on a grid accepted by `ValidateSquareMatrix`, `EchoHandler` answers
with status 200 and the body made of the rows in input order, each row being
its cells, verbatim, joined by `,` and followed by a newline. -/
theorem C2_echo_body (Quote : String → String) (records : List (List String))
    (h : ValidateSquareMatrix Quote records = none) :
    EchoHandler Quote (Request.records records) =
      Response.mk 200
        (String.join (records.map (fun row => String.intercalate "," row ++ "\n"))) := by
  have hpos : records.length ≠ 0 := by
    have := (validate_accepts Quote records h).1
    omega
  unfold EchoHandler ParseCSVFile
  simp only [if_neg hpos, h]
  rw [writeOK, buildResponse_eq]

theorem C2_echo_body_witness :
    ValidateSquareMatrix quoteASCII [["1", "2"], ["3", "4"]] = none ∧
      EchoHandler quoteASCII (Request.records [["1", "2"], ["3", "4"]]) =
        Response.mk 200 "1,2\n3,4\n" :=
  ⟨by decide, C2_echo_body quoteASCII [["1", "2"], ["3", "4"]] (by decide)⟩


/-! ## Invert -/

theorem invertRow_spec (row : List String) (idx : Nat) (inv : List (List String))
    (hb : idx + row.length ≤ inv.length) :
    ∃ out, invertRow idx row inv = some out ∧ out.length = inv.length ∧
      ∀ k : Nat, out[k]? =
        (inv[k]?).map (fun col => col ++ (if idx ≤ k then (row[k - idx]?).toList else [])) := by
  induction row generalizing idx inv with
  | nil =>
    refine ⟨inv, rfl, rfl, ?_⟩
    intro k
    cases inv[k]? <;> simp
  | cons num rest ih =>
    have hidx : idx < inv.length := by
      simp only [List.length_cons] at hb
      omega
    have hget : inv[idx]? = some inv[idx] := List.getElem?_eq_getElem hidx
    have hb1 : idx + 1 + rest.length ≤ (inv.set idx (inv[idx] ++ [num])).length := by
      simp only [List.length_cons] at hb
      rw [List.length_set]
      omega
    obtain ⟨out, hout, hlen, hk⟩ := ih (idx + 1) (inv.set idx (inv[idx] ++ [num])) hb1
    refine ⟨out, ?_, ?_, ?_⟩
    · rw [invertRow, hget]
      exact hout
    · rw [hlen, List.length_set]
    · intro k
      rw [hk k, List.getElem?_set]
      by_cases hki : idx = k
      · subst hki
        simp [hidx, hget]
      · rw [if_neg hki]
        by_cases hlt : idx ≤ k
        · have h1 : idx + 1 ≤ k := by omega
          have h2 : k - idx = (k - (idx + 1)) + 1 := by omega
          rw [if_pos h1, if_pos hlt, h2, List.getElem?_cons_succ]
        · have h1 : ¬ idx + 1 ≤ k := by omega
          rw [if_neg h1, if_neg hlt]

theorem invertRows_spec (rows : List (List String)) (inv : List (List String))
    (hb : ∀ row ∈ rows, row.length ≤ inv.length) :
    ∃ out, invertRows rows inv = some out ∧ out.length = inv.length ∧
      ∀ k : Nat, out[k]? = (inv[k]?).map (fun col => col ++ rows.filterMap (fun (row : List String) => row[k]?)) := by
  induction rows generalizing inv with
  | nil =>
    refine ⟨inv, rfl, rfl, ?_⟩
    intro k
    cases inv[k]? <;> simp
  | cons row rest ih =>
    obtain ⟨inv1, h1, hlen1, hk1⟩ :=
      invertRow_spec row 0 inv (by simpa using hb row (by simp))
    have hb1 : ∀ r ∈ rest, r.length ≤ inv1.length := by
      intro r hr
      rw [hlen1]
      exact hb r (by simp [hr])
    obtain ⟨out, hout, hlen, hk⟩ := ih inv1 hb1
    refine ⟨out, ?_, ?_, ?_⟩
    · rw [invertRows, h1]
      exact hout
    · rw [hlen, hlen1]
    · intro k
      rw [hk k, hk1 k]
      cases hik : inv[k]? with
      | none => rfl
      | some col =>
        cases hrk : row[k]? with
        | none => simp [hrk]
        | some x => simp [hrk]

/-- The matrix built by the loops of `InvertHandler`, for any grid whose rows
are no longer than the grid is tall: row `k` of the result collects the cell
of column `k` of every input row that has one, in row order. -/
theorem invert_spec (records : List (List String))
    (hb : ∀ row ∈ records, row.length ≤ records.length) :
    ∃ out, invert records = some out ∧ out.length = records.length ∧
      ∀ k : Nat, k < records.length → out[k]? = some (records.filterMap (fun (row : List String) => row[k]?)) := by
  obtain ⟨out, hout, hlen, hk⟩ :=
    invertRows_spec records (List.replicate records.length []) (by simpa using hb)
  refine ⟨out, hout, by simpa using hlen, ?_⟩
  intro k hklt
  rw [hk k, List.getElem?_replicate, if_pos hklt]
  simp

theorem filterMap_column (rows : List (List String)) (n k : Nat) (hk : k < n)
    (hrows : ∀ row ∈ rows, row.length = n) :
    rows.filterMap (fun (row : List String) => row[k]?) = rows.map (fun row => row.getD k "") := by
  induction rows with
  | nil => rfl
  | cons row rest ih =>
    have hlt : k < row.length := by
      rw [hrows row (by simp)]
      exact hk
    have hrest : ∀ r ∈ rest, r.length = n := fun r hr => hrows r (by simp [hr])
    rw [List.filterMap_cons, List.getElem?_eq_getElem hlt, List.map_cons, ih hrest]
    simp [List.getD, List.getElem?_eq_getElem hlt]

/-- The transpose of a square grid, cell by cell. -/
theorem invert_square (records : List (List String))
    (hsq : ∀ row ∈ records, row.length = records.length) :
    ∃ out, invert records = some out ∧ out.length = records.length ∧
      (∀ row ∈ out, row.length = records.length) ∧
      ∀ i j, i < records.length → j < records.length →
        ∃ c, cellAt records i j = some c ∧ cellAt out j i = some c := by
  obtain ⟨out, hout, hlen, hk⟩ := invert_spec records (fun row hrow => (hsq row hrow).le)
  have hcol : ∀ k, k < records.length →
      out[k]? = some (records.map (fun row => row.getD k "")) := by
    intro k hklt
    rw [hk k hklt, filterMap_column records records.length k hklt hsq]
  refine ⟨out, hout, hlen, ?_, ?_⟩
  · intro row hrow
    obtain ⟨k, hklt, hkeq⟩ := List.getElem_of_mem hrow
    have h1 := hcol k (by rw [← hlen]; exact hklt)
    rw [List.getElem?_eq_getElem hklt, hkeq] at h1
    injection h1 with h1
    rw [h1, List.length_map]
  · intro i j hi hj
    have hrow : records[i]? = some records[i] := List.getElem?_eq_getElem hi
    have hjlt : j < (records[i]).length := by
      rw [hsq records[i] (List.getElem_mem hi)]
      exact hj
    refine ⟨(records[i])[j], ?_, ?_⟩
    · simp [cellAt, hrow, List.getElem?_eq_getElem hjlt]
    · simp [cellAt, hcol j hj, hrow, List.getD, List.getElem?_eq_getElem hjlt]

theorem cellAt_eq_getElem (m : List (List String)) (i j : Nat) (hi : i < m.length)
    (hj : j < (m[i]).length) : cellAt m i j = some ((m[i])[j]) := by
  simp [cellAt, List.getElem?_eq_getElem hi, List.getElem?_eq_getElem hj]

theorem grid_ext (a b : List (List String)) (n : Nat) (ha : a.length = n) (hb : b.length = n)
    (hra : ∀ row ∈ a, row.length = n) (hrb : ∀ row ∈ b, row.length = n)
    (hc : ∀ i j, i < n → j < n → cellAt a i j = cellAt b i j) : a = b := by
  apply List.ext_getElem (by rw [ha, hb])
  intro i h1 h2
  have hla : (a[i]).length = n := hra _ (List.getElem_mem h1)
  have hlb : (b[i]).length = n := hrb _ (List.getElem_mem h2)
  apply List.ext_getElem (by rw [hla, hlb])
  intro j h3 h4
  have hcell := hc i j (by rw [← ha]; exact h1) (by rw [← hla]; exact h3)
  rw [cellAt_eq_getElem a i j h1 h3, cellAt_eq_getElem b i j h2 h4] at hcell
  injection hcell

/-- C3: on a grid accepted by `ValidateSquareMatrix` (`N` rows of `N` cells)
the matrix built by `InvertHandler` exists (no index leaves the slice), has `N`
rows of `N` cells, satisfies `output[j][i] = input[i][j]` for all `i, j < N`,
and the response is status 200 with that matrix in the Echo format. -/
theorem C3_invert_transposes (Quote : String → String) (records : List (List String))
    (h : ValidateSquareMatrix Quote records = none) :
    ∃ out, invert records = some out ∧ out.length = records.length ∧
      (∀ row ∈ out, row.length = records.length) ∧
      (∀ i j, i < records.length → j < records.length →
        ∃ c, cellAt records i j = some c ∧ cellAt out j i = some c) ∧
      InvertHandler Quote (Request.records records) =
        some (Response.mk 200
          (String.join (out.map (fun row => String.intercalate "," row ++ "\n")))) := by
  obtain ⟨hpos, hsq, _⟩ := validate_accepts Quote records h
  obtain ⟨out, hout, hlen, hrows, hcells⟩ := invert_square records hsq
  refine ⟨out, hout, hlen, hrows, hcells, ?_⟩
  have hne : records.length ≠ 0 := by omega
  unfold InvertHandler ParseCSVFile
  simp only [if_neg hne, h, hout]
  rw [writeOK, buildResponse_eq]

theorem C3_invert_transposes_witness :
    ValidateSquareMatrix quoteASCII [["1", "2"], ["3", "4"]] = none ∧
      ∃ out, invert [["1", "2"], ["3", "4"]] = some out ∧ out.length = 2 ∧
        (∀ row ∈ out, row.length = 2) ∧
        (∀ i j, i < 2 → j < 2 →
          ∃ c, cellAt [["1", "2"], ["3", "4"]] i j = some c ∧ cellAt out j i = some c) ∧
        InvertHandler quoteASCII (Request.records [["1", "2"], ["3", "4"]]) =
          some (Response.mk 200
            (String.join (out.map (fun row => String.intercalate "," row ++ "\n")))) :=
  ⟨by decide, C3_invert_transposes quoteASCII [["1", "2"], ["3", "4"]] (by decide)⟩

/-- C4: the transposition of `InvertHandler` is an involution on accepted
grids: it succeeds on `M`, it succeeds on the result, and gives back `M`. -/
theorem C4_invert_involution (Quote : String → String) (records : List (List String))
    (h : ValidateSquareMatrix Quote records = none) :
    ∃ t, invert records = some t ∧ invert t = some records := by
  obtain ⟨_, hsq, _⟩ := validate_accepts Quote records h
  obtain ⟨t, ht, htlen, htrows, htcells⟩ := invert_square records hsq
  have htsq : ∀ row ∈ t, row.length = t.length := by
    intro row hrow
    rw [htlen]
    exact htrows row hrow
  obtain ⟨u, hu, hulen, hurows, hucells⟩ := invert_square t htsq
  refine ⟨t, ht, ?_⟩
  rw [hu]
  congr 1
  apply grid_ext u records records.length (by rw [hulen, htlen]) rfl
    (by intro row hrow; rw [hurows row hrow, htlen]) hsq
  intro i j hi hj
  obtain ⟨c, hc1, hc2⟩ := htcells i j hi hj
  obtain ⟨d, hd1, hd2⟩ := hucells j i (by rw [htlen]; exact hj) (by rw [htlen]; exact hi)
  rw [hd2, hc1, ← hc2, hd1]

theorem C4_invert_involution_witness :
    ValidateSquareMatrix quoteASCII [["1", "2"], ["3", "4"]] = none ∧
      ∃ t, invert [["1", "2"], ["3", "4"]] = some t ∧ invert t = some [["1", "2"], ["3", "4"]] :=
  ⟨by decide, C4_invert_involution quoteASCII [["1", "2"], ["3", "4"]] (by decide)⟩


/-! ## What `strconv.Atoi` accepts: the characters -/

theorem AtoiFastLoop_digits (cs : List Char) (n v : Int) (h : AtoiFastLoop cs n = some v) :
    ∀ c ∈ cs, c.isDigit = true := by
  induction cs generalizing n with
  | nil => simp
  | cons c cs ih =>
    unfold AtoiFastLoop at h
    by_cases hc : c.isDigit = true
    · rw [if_pos hc] at h
      intro x hx
      rcases List.mem_cons.1 hx with rfl | hx
      · exact hc
      · exact ih _ h x hx
    · rw [if_neg hc] at h
      cases h

theorem ParseUintLoop_ok (s0 : String) (cs : List Char) (n : Nat)
    (h : (ParseUintLoop s0 cs n).2 = none) : ∀ c ∈ cs, c.isDigit = true := by
  induction cs generalizing n with
  | nil => simp
  | cons c cs ih =>
    unfold ParseUintLoop at h
    by_cases hc : c.isDigit = true
    · rw [if_pos hc] at h
      split at h
      · cases h
      · simp only at h
        split at h
        · cases h
        · intro x hx
          rcases List.mem_cons.1 hx with rfl | hx
          · exact hc
          · exact ih _ h x hx
    · rw [if_neg hc] at h
      cases h

theorem ParseUintLoop_range (s0 : String) (cs : List Char) (n : Nat) (e : NumError)
    (h : (ParseUintLoop s0 cs n).2 = some e) (he : e.Err = ConvErr.ErrRange) :
    (ParseUintLoop s0 cs n).1 = maxUint64 := by
  induction cs generalizing n with
  | nil => simp [ParseUintLoop] at h
  | cons c cs ih =>
    unfold ParseUintLoop at h ⊢
    by_cases hc : c.isDigit = true
    · rw [if_pos hc] at h ⊢
      split
      · rfl
      · rename_i hcut
        rw [if_neg hcut] at h
        simp only at h ⊢
        split
        · rfl
        · rename_i hov
          rw [if_neg hov] at h
          exact ih _ h
    · rw [if_neg hc] at h
      simp only [Option.some.injEq] at h
      rw [← h] at he
      cases he

theorem ParseUint_ok (s : String) (h : (ParseUint s).2 = none) :
    ∀ c ∈ s.data, c.isDigit = true := by
  unfold ParseUint at h
  by_cases hs : s = ""
  · rw [if_pos hs] at h
    cases h
  · rw [if_neg hs] at h
    exact ParseUintLoop_ok s s.data 0 h

theorem ParseUint_range (s : String) (e : NumError) (h : (ParseUint s).2 = some e)
    (he : e.Err = ConvErr.ErrRange) : (ParseUint s).1 = maxUint64 := by
  unfold ParseUint at h ⊢
  by_cases hs : s = ""
  · rw [if_pos hs] at h
    simp only [Option.some.injEq] at h
    rw [← h] at he
    cases he
  · rw [if_neg hs] at h ⊢
    exact ParseUintLoop_range s s.data 0 e h he

theorem maxUint64_ge : 9223372036854775808 ≤ maxUint64 ∧ 9223372036854775808 < maxUint64 := by
  unfold maxUint64
  constructor <;> norm_num

theorem ParseInt_ok_magnitude (s : String) (h : (ParseInt s).2 = none) :
    s ≠ "" ∧
      (ParseUint (if (s.data.head? == some '+' || s.data.head? == some '-') = true
        then String.mk s.data.tail else s)).2 = none := by
  unfold ParseInt at h
  by_cases hs : s = ""
  · rw [if_pos hs] at h
    cases h
  · rw [if_neg hs] at h
    refine ⟨hs, ?_⟩
    simp only at h
    generalize (if (s.data.head? == some '+' || s.data.head? == some '-') = true
      then String.mk s.data.tail else s) = rest at h ⊢
    generalize (s.data.head? == some '-') = neg at h
    cases hr : (ParseUint rest).2 with
    | none => rfl
    | some e =>
      exfalso
      obtain ⟨f, num, err⟩ := e
      cases err with
      | ErrSyntax =>
        rw [hr] at h
        cases h
      | ErrRange =>
        have hmax := ParseUint_range rest _ hr rfl
        rw [hr, hmax] at h
        simp only at h
        cases neg with
        | false =>
          simp only [Bool.not_false, Bool.true_and, ge_iff_le, decide_eq_true_eq] at h
          norm_num at h
          rw [if_pos maxUint64_ge.1] at h
          cases h
        | true =>
          simp only [Bool.not_true, Bool.false_and, Bool.true_and, gt_iff_lt,
            decide_eq_true_eq] at h
          norm_num at h
          rw [if_pos maxUint64_ge.2] at h
          cases h

theorem ParseInt_ok (s : String) (h : (ParseInt s).2 = none) :
    ∀ c ∈ s.data, c.isDigit = true ∨ c = '+' ∨ c = '-' := by
  obtain ⟨_, hmag⟩ := ParseInt_ok_magnitude s h
  have hd := ParseUint_ok _ hmag
  obtain ⟨data⟩ := s
  cases data with
  | nil => simp
  | cons a as =>
    intro c hc
    simp only [List.head?_cons, List.tail_cons] at hd
    by_cases hp : a = '+'
    · subst hp
      rcases List.mem_cons.1 hc with rfl | hc
      · exact Or.inr (Or.inl rfl)
      · exact Or.inl (hd c (by simpa using hc))
    · by_cases hm : a = '-'
      · subst hm
        rcases List.mem_cons.1 hc with rfl | hc
        · exact Or.inr (Or.inr rfl)
        · exact Or.inl (hd c (by simpa using hc))
      · have hcond : ((some a == some '+' || some a == some '-') = true) = False := by
          simp [hp, hm]
        simp only [hcond, if_false] at hd
        exact Or.inl (hd c hc)

theorem Atoi_ok_chars (s : String) (h : (Atoi s).2 = none) :
    ∀ c ∈ s.data, c.isDigit = true ∨ c = '+' ∨ c = '-' := by
  unfold Atoi at h
  split at h
  · simp only at h
    generalize hdig : (if (s.data.head? == some '-' || s.data.head? == some '+') = true
      then s.data.tail else s.data) = digits at h
    have hall : ∀ c ∈ digits, c.isDigit = true := by
      split at h
      · cases h
      · cases hl : AtoiFastLoop digits 0 with
        | none =>
          rw [hl] at h
          cases h
        | some n => exact AtoiFastLoop_digits digits 0 n hl
    obtain ⟨data⟩ := s
    cases data with
    | nil => simp
    | cons a as =>
      intro c hc
      simp only [List.head?_cons, List.tail_cons] at hdig
      by_cases hm : a = '-'
      · subst hm
        simp only [beq_self_eq_true, Bool.true_or, if_true] at hdig
        rcases List.mem_cons.1 hc with rfl | hc
        · exact Or.inr (Or.inr rfl)
        · exact Or.inl (hall c (by rw [← hdig]; exact hc))
      · by_cases hp : a = '+'
        · subst hp
          simp only [beq_self_eq_true, Bool.or_true, if_true] at hdig
          rcases List.mem_cons.1 hc with rfl | hc
          · exact Or.inr (Or.inl rfl)
          · exact Or.inl (hall c (by rw [← hdig]; exact hc))
        · have hcond : ((some a == some '-' || some a == some '+') = true) = False := by
            simp [hp, hm]
          simp only [hcond, if_false] at hdig
          exact Or.inl (hall c (by rw [← hdig]; exact hc))
  · simp only [Option.map_eq_none'] at h
    exact ParseInt_ok s h


/-! ## Flatten: the line and its tokens -/

theorem foldl_join_data (sep : String) (rest : List String) (acc : String) :
    (rest.foldl (fun b s => b ++ sep ++ s) acc).data =
      acc.data ++ rest.flatMap (fun s => sep.data ++ s.data) := by
  induction rest generalizing acc with
  | nil => simp
  | cons r rs ih =>
    simp only [List.foldl_cons, List.flatMap_cons]
    rw [ih, String.data_append, String.data_append]
    simp only [List.append_assoc]

theorem intercalate_data (sep : String) (e : String) (rest : List String) :
    (String.intercalate sep (e :: rest)).data =
      e.data ++ rest.flatMap (fun s => sep.data ++ s.data) := by
  rw [String.intercalate, intercalate_go_eq_foldl, foldl_join_data]

theorem intercalate_chars (sep : String) (l : List String) (c : Char)
    (hc : c ∈ (String.intercalate sep l).data) : c ∈ sep.data ∨ ∃ s ∈ l, c ∈ s.data := by
  cases l with
  | nil => simp [String.intercalate] at hc
  | cons e rest =>
    rw [intercalate_data] at hc
    rcases List.mem_append.1 hc with h | h
    · exact Or.inr ⟨e, by simp, h⟩
    · obtain ⟨s, hs, hcs⟩ := List.mem_flatMap.1 h
      rcases List.mem_append.1 hcs with h1 | h1
      · exact Or.inl h1
      · exact Or.inr ⟨s, by simp [hs], h1⟩

theorem splitChars_piece (sep : Char) (a b : List Char) (ha : sep ∉ a) :
    splitChars sep (a ++ sep :: b) = a :: splitChars sep b := by
  induction a with
  | nil => simp [splitChars]
  | cons c a ih =>
    have hc : c ≠ sep := fun h => ha (by simp [h])
    have ha1 : sep ∉ a := fun h => ha (by simp [h])
    rw [List.cons_append, splitChars, if_neg hc, ih ha1]

theorem splitChars_last (sep : Char) (a : List Char) (ha : sep ∉ a) :
    splitChars sep a = [a] := by
  induction a with
  | nil => simp [splitChars]
  | cons c a ih =>
    have hc : c ≠ sep := fun h => ha (by simp [h])
    have ha1 : sep ∉ a := fun h => ha (by simp [h])
    rw [splitChars, if_neg hc, ih ha1]

theorem splitChars_joined (sep : Char) (e : String) (rest : List String)
    (h : ∀ s ∈ e :: rest, sep ∉ s.data) :
    splitChars sep (e.data ++ rest.flatMap (fun s => sep :: s.data)) =
      (e :: rest).map String.data := by
  induction rest generalizing e with
  | nil =>
    simp only [List.flatMap_nil, List.append_nil, List.map_cons, List.map_nil]
    exact splitChars_last sep e.data (h e (by simp))
  | cons r rs ih =>
    have hr : ∀ s ∈ r :: rs, sep ∉ s.data := fun s hs => h s (by simp [List.mem_cons.1 hs])
    rw [List.flatMap_cons, List.cons_append, splitChars_piece sep e.data _ (h e (by simp)),
      ih r hr]
    rfl

theorem Split_intercalate (tokens : List String) (hne : tokens ≠ [])
    (h : ∀ s ∈ tokens, ',' ∉ s.data) : Split (String.intercalate "," tokens) ',' = tokens := by
  cases tokens with
  | nil => exact absurd rfl hne
  | cons e rest =>
    unfold Split
    rw [intercalate_data]
    have hsep : ∀ s : String, ("," : String).data ++ s.data = ',' :: s.data := fun _ => rfl
    have hid : (String.mk ∘ String.data) = id := rfl
    simp only [hsep]
    rw [splitChars_joined ',' e rest h, List.map_map, hid, List.map_id]

theorem flatten_length_square (rows : List (List String)) (n : Nat)
    (h : ∀ row ∈ rows, row.length = n) : rows.flatten.length = rows.length * n := by
  induction rows with
  | nil => simp
  | cons row rest ih =>
    have h1 : ∀ r ∈ rest, r.length = n := fun r hr => h r (by simp [hr])
    simp only [List.flatten_cons, List.length_append, List.length_cons, ih h1, h row (by simp)]
    ring

theorem Atoi_ok_no_comma (val : String) (h : (Atoi val).2 = none) : ',' ∉ val.data := by
  intro hc
  rcases Atoi_ok_chars val h ',' hc with h1 | h1 | h1
  · revert h1
    decide
  · revert h1
    decide
  · revert h1
    decide

theorem Atoi_ok_no_newline (val : String) (h : (Atoi val).2 = none) : '\n' ∉ val.data := by
  intro hc
  rcases Atoi_ok_chars val h '\n' hc with h1 | h1 | h1
  · revert h1
    decide
  · revert h1
    decide
  · revert h1
    decide

theorem FlattenHandler_accepted (Quote : String → String) (records : List (List String))
    (h : ValidateSquareMatrix Quote records = none) :
    FlattenHandler Quote (Request.records records) =
      Response.mk 200 (String.intercalate "," records.flatten ++ "\n") := by
  have hne : records.length ≠ 0 := by
    have := (validate_accepts Quote records h).1
    omega
  unfold FlattenHandler ParseCSVFile
  simp only [if_neg hne, h]
  rw [writeOK, flatten_eq, Join_eq_intercalate]

/-- C5: on a grid accepted by `ValidateSquareMatrix`, `FlattenHandler` answers
with status 200 and a body that is all the cells in row-major order joined by
`,`, followed by one newline; the joined cells contain no newline, so the body
is a single line. -/
theorem C5_flatten_body (Quote : String → String) (records : List (List String))
    (h : ValidateSquareMatrix Quote records = none) :
    FlattenHandler Quote (Request.records records) =
        Response.mk 200 (String.intercalate "," records.flatten ++ "\n") ∧
      '\n' ∉ (String.intercalate "," records.flatten).data := by
  refine ⟨FlattenHandler_accepted Quote records h, ?_⟩
  obtain ⟨_, _, hcells⟩ := validate_accepts Quote records h
  intro hc
  rcases intercalate_chars "," records.flatten '\n' hc with h1 | ⟨val, hval, h1⟩
  · revert h1
    decide
  · obtain ⟨row, hrow, hmem⟩ := List.mem_flatten.1 hval
    exact Atoi_ok_no_newline val (hcells row hrow val hmem) h1

theorem C5_flatten_body_witness :
    ValidateSquareMatrix quoteASCII [["1", "2"], ["3", "4"]] = none ∧
      (FlattenHandler quoteASCII (Request.records [["1", "2"], ["3", "4"]]) =
          Response.mk 200 "1,2,3,4\n" ∧
        '\n' ∉ ("1,2,3,4" : String).data) :=
  ⟨by decide, C5_flatten_body quoteASCII [["1", "2"], ["3", "4"]] (by decide)⟩

/-- C6: for an accepted `N × N` grid, the Flatten body is a line followed by a
newline, and splitting that line at `,` gives back exactly the input cells in
row-major order, `N * N` tokens; no accepted cell contains a comma. -/
theorem C6_flatten_tokens (Quote : String → String) (records : List (List String))
    (h : ValidateSquareMatrix Quote records = none) :
    ∃ line, (FlattenHandler Quote (Request.records records)).body = line ++ "\n" ∧
      Split line ',' = records.flatten ∧
      (Split line ',').length = records.length * records.length ∧
      ∀ row ∈ records, ∀ val ∈ row, ',' ∉ val.data := by
  obtain ⟨hpos, hsq, hcells⟩ := validate_accepts Quote records h
  have hcomma : ∀ row ∈ records, ∀ val ∈ row, ',' ∉ val.data :=
    fun row hrow val hval => Atoi_ok_no_comma val (hcells row hrow val hval)
  have hlen : records.flatten.length = records.length * records.length :=
    flatten_length_square records records.length hsq
  have hne : records.flatten ≠ [] := by
    intro hnil
    rw [hnil] at hlen
    have : 0 < records.length * records.length := Nat.mul_pos hpos hpos
    simp only [List.length_nil] at hlen
    omega
  have hsplit : Split (String.intercalate "," records.flatten) ',' = records.flatten := by
    apply Split_intercalate records.flatten hne
    intro val hval
    obtain ⟨row, hrow, hmem⟩ := List.mem_flatten.1 hval
    exact hcomma row hrow val hmem
  refine ⟨String.intercalate "," records.flatten, ?_, hsplit, ?_, hcomma⟩
  · rw [FlattenHandler_accepted Quote records h]
  · rw [hsplit, hlen]

theorem C6_flatten_tokens_witness :
    ValidateSquareMatrix quoteASCII [["1", "2"], ["3", "4"]] = none ∧
      ∃ line, (FlattenHandler quoteASCII (Request.records [["1", "2"], ["3", "4"]])).body =
          line ++ "\n" ∧
        Split line ',' = ["1", "2", "3", "4"] ∧
        (Split line ',').length = 2 * 2 ∧
        ∀ row ∈ [["1", "2"], ["3", "4"]], ∀ val ∈ row, ',' ∉ val.data :=
  ⟨by decide, C6_flatten_tokens quoteASCII [["1", "2"], ["3", "4"]] (by decide)⟩


/-! ## What `strconv.Atoi` returns: the value -/

theorem wrapInt_eq_self (x : Int) (h1 : -2 ^ 63 ≤ x) (h2 : x < 2 ^ 63) : wrapInt x = x := by
  unfold wrapInt
  omega

theorem wrapInt_range (x : Int) : -2 ^ 63 ≤ wrapInt x ∧ wrapInt x < 2 ^ 63 := by
  unfold wrapInt
  omega

theorem wrapInt_add_wrapInt (a b : Int) : wrapInt (wrapInt a + b) = wrapInt (a + b) := by
  unfold wrapInt
  omega

theorem isDigit_toNat (c : Char) (h : c.isDigit = true) : 48 ≤ c.toNat ∧ c.toNat ≤ 57 := by
  simp only [Char.isDigit, Bool.and_eq_true, decide_eq_true_eq] at h
  obtain ⟨h1, h2⟩ := h
  have h3 : (48 : UInt32).toNat ≤ c.val.toNat := h1
  have h4 : c.val.toNat ≤ (57 : UInt32).toNat := h2
  exact ⟨h3, h4⟩

theorem utf8ByteSize_go_ge (cs : List Char) : cs.length ≤ String.utf8ByteSize.go cs := by
  induction cs with
  | nil => simp [String.utf8ByteSize.go]
  | cons c cs ih =>
    have := Char.utf8Size_pos c
    simp only [String.utf8ByteSize.go, List.length_cons]
    omega

theorem AtoiFastLoop_value (cs : List Char) (m : Nat) (v : Int) (p : Nat)
    (hm : m < p) (hp : p * 10 ^ cs.length ≤ 10 ^ 18)
    (h : AtoiFastLoop cs (m : Int) = some v) :
    v = ((cs.foldl (fun n c => n * 10 + (c.toNat - 48)) m : Nat) : Int) ∧
      cs.foldl (fun n c => n * 10 + (c.toNat - 48)) m < 10 ^ 18 := by
  induction cs generalizing m p with
  | nil =>
    simp only [AtoiFastLoop, Option.some.injEq] at h
    simp only [List.length_nil, pow_zero, mul_one] at hp
    refine ⟨by simp [← h], ?_⟩
    simp only [List.foldl_nil]
    omega
  | cons c cs ih =>
    unfold AtoiFastLoop at h
    by_cases hc : c.isDigit = true
    · rw [if_pos hc] at h
      obtain ⟨hd1, hd2⟩ := isDigit_toNat c hc
      have hpow : p * 10 * 10 ^ cs.length ≤ 10 ^ 18 := by
        simp only [List.length_cons, pow_succ] at hp
        calc p * 10 * 10 ^ cs.length = p * (10 ^ cs.length * 10) := by ring
          _ ≤ 10 ^ 18 := hp
      have hpos : 1 ≤ 10 ^ cs.length := Nat.one_le_pow _ _ (by norm_num)
      have hp10 : p * 10 ≤ 10 ^ 18 := by
        calc p * 10 = p * 10 * 1 := by ring
          _ ≤ p * 10 * 10 ^ cs.length := Nat.mul_le_mul_left _ hpos
          _ ≤ 10 ^ 18 := hpow
      have hnew : m * 10 + (c.toNat - 48) < p * 10 := by omega
      have hcast : (m : Int) * 10 + ((c.toNat - 48 : Nat) : Int) =
          ((m * 10 + (c.toNat - 48) : Nat) : Int) := by
        push_cast
        ring
      have hsmall : ((m * 10 + (c.toNat - 48) : Nat) : Int) < 2 ^ 63 := by
        have : m * 10 + (c.toNat - 48) < 10 ^ 18 := by omega
        have h18 : (10 : Nat) ^ 18 < 2 ^ 63 := by norm_num
        have : m * 10 + (c.toNat - 48) < 2 ^ 63 := by omega
        exact_mod_cast this
      rw [hcast, wrapInt_eq_self _ (by omega) hsmall] at h
      rw [List.foldl_cons]
      exact ih (m * 10 + (c.toNat - 48)) (p * 10) hnew hpow h
    · rw [if_neg hc] at h
      cases h

theorem AtoiFastLoop_digitsValue (cs : List Char) (v : Int) (hlen : cs.length ≤ 18)
    (h : AtoiFastLoop cs 0 = some v) :
    v = ((digitsValue cs : Nat) : Int) ∧ digitsValue cs < 10 ^ 18 := by
  have hp : 1 * 10 ^ cs.length ≤ 10 ^ 18 := by
    rw [one_mul]
    exact Nat.pow_le_pow_right (by norm_num) hlen
  exact AtoiFastLoop_value cs 0 v 1 (by norm_num) hp h

theorem ParseUintLoop_value (s0 : String) (cs : List Char) (n : Nat)
    (h : (ParseUintLoop s0 cs n).2 = none) :
    (ParseUintLoop s0 cs n).1 = cs.foldl (fun n c => n * 10 + (c.toNat - 48)) n := by
  induction cs generalizing n with
  | nil => rfl
  | cons c cs ih =>
    unfold ParseUintLoop at h ⊢
    by_cases hc : c.isDigit = true
    · rw [if_pos hc] at h ⊢
      obtain ⟨hd1, hd2⟩ := isDigit_toNat c hc
      by_cases hcut : n ≥ maxUint64 / 10 + 1
      · rw [if_pos hcut] at h
        cases h
      · rw [if_neg hcut] at h ⊢
        simp only at h ⊢
        by_cases hov : (n * 10 % 2 ^ 64 + (c.toNat - 48)) % 2 ^ 64 < n * 10 % 2 ^ 64 ∨
            (n * 10 % 2 ^ 64 + (c.toNat - 48)) % 2 ^ 64 > maxUint64
        · rw [if_pos hov] at h
          cases h
        · rw [if_neg hov] at h ⊢
          have hstep : (n * 10 % 2 ^ 64 + (c.toNat - 48)) % 2 ^ 64 = n * 10 + (c.toNat - 48) := by
            unfold maxUint64 at hcut hov
            omega
          rw [hstep] at h ⊢
          rw [List.foldl_cons]
          exact ih _ h
    · rw [if_neg hc] at h
      cases h

theorem ParseUint_value (s : String) (h : (ParseUint s).2 = none) :
    (ParseUint s).1 = digitsValue s.data := by
  unfold ParseUint at h ⊢
  by_cases hs : s = ""
  · rw [if_pos hs] at h
    cases h
  · rw [if_neg hs] at h ⊢
    exact ParseUintLoop_value s s.data 0 h

theorem cellValue_minus (cs : List Char) :
    cellValue (String.mk ('-' :: cs)) = -((digitsValue cs : Nat) : Int) := rfl

theorem cellValue_plus (cs : List Char) :
    cellValue (String.mk ('+' :: cs)) = ((digitsValue cs : Nat) : Int) := rfl

theorem cellValue_unsigned (a : Char) (cs : List Char) (hm : a ≠ '-') (hp : a ≠ '+') :
    cellValue (String.mk (a :: cs)) = ((digitsValue (a :: cs) : Nat) : Int) := by
  unfold cellValue
  split
  · rename_i heq
    simp only [List.cons.injEq] at heq
    exact absurd heq.1 hm
  · rename_i heq
    simp only [List.cons.injEq] at heq
    exact absurd heq.1 hp
  · rfl

theorem ParseInt_value (s : String) (h : (ParseInt s).2 = none) :
    (ParseInt s).1 = cellValue s ∧ -2 ^ 63 ≤ cellValue s ∧ cellValue s < 2 ^ 63 := by
  obtain ⟨hs, hmag⟩ := ParseInt_ok_magnitude s h
  have hval := ParseUint_value _ hmag
  unfold ParseInt at h ⊢
  rw [if_neg hs] at h ⊢
  simp only at h ⊢
  rw [hmag] at h ⊢
  simp only at h ⊢
  rw [hval] at h ⊢
  obtain ⟨data⟩ := s
  cases data with
  | nil => exact absurd rfl hs
  | cons a as =>
    by_cases hm : a = '-'
    · subst hm
      simp only [List.head?_cons, List.tail_cons, beq_self_eq_true, Bool.or_true, if_true,
        Bool.not_true, Bool.false_and, Bool.true_and] at h ⊢
      rw [cellValue_minus]
      generalize digitsValue as = d at h ⊢
      by_cases hbig : d > 2 ^ 63
      · have hb : 9223372036854775808 < d := by omega
        simp [hb] at h
      · simp only [hbig, decide_False, Bool.false_eq_true, if_false]
        unfold wrapInt
        omega
    · by_cases hp : a = '+'
      · subst hp
        simp only [List.head?_cons, List.tail_cons, beq_self_eq_true, Bool.true_or, if_true] at h ⊢
        rw [cellValue_plus]
        generalize digitsValue as = d at h ⊢
        have hneg : (some '+' == some '-') = false := by decide
        simp only [hneg, Bool.not_false, Bool.true_and, Bool.false_and] at h ⊢
        by_cases hbig : d ≥ 2 ^ 63
        · have hb : 9223372036854775808 ≤ d := by omega
          simp [hb] at h
        · simp only [hbig, decide_False, Bool.false_eq_true, if_false]
          unfold wrapInt
          omega
      · have h1 : (some a == some '+') = false := by simp [hp]
        have h2 : (some a == some '-') = false := by simp [hm]
        simp only [List.head?_cons, h1, h2, Bool.or_false, Bool.false_eq_true, if_false,
          Bool.not_false, Bool.true_and, Bool.false_and] at h ⊢
        rw [cellValue_unsigned a as hm hp]
        generalize digitsValue (a :: as) = d at h ⊢
        by_cases hbig : d ≥ 2 ^ 63
        · have hb : 9223372036854775808 ≤ d := by omega
          simp [hb] at h
        · simp only [hbig, decide_False, Bool.false_eq_true, if_false]
          unfold wrapInt
          omega

theorem Atoi_value (s : String) (h : (Atoi s).2 = none) :
    (Atoi s).1 = cellValue s ∧ -2 ^ 63 ≤ cellValue s ∧ cellValue s < 2 ^ 63 := by
  unfold Atoi at h ⊢
  by_cases hfast : 0 < s.utf8ByteSize ∧ s.utf8ByteSize < 19
  · rw [if_pos hfast] at h ⊢
    simp only at h ⊢
    obtain ⟨data⟩ := s
    have hlen : data.length < 19 := lt_of_le_of_lt (utf8ByteSize_go_ge data) hfast.2
    cases data with
    | nil => simp [String.utf8ByteSize, String.utf8ByteSize.go] at hfast
    | cons a as =>
      simp only [List.length_cons] at hlen
      by_cases hm : a = '-'
      · subst hm
        simp only [List.head?_cons, List.tail_cons, beq_self_eq_true, Bool.true_or, if_true,
          Bool.true_and] at h ⊢
        rw [cellValue_minus]
        by_cases hshort : as.length < 1
        · simp [hshort] at h
        · simp only [hshort, decide_False, Bool.false_eq_true, if_false] at h ⊢
          cases hl : AtoiFastLoop as 0 with
          | none =>
            rw [hl] at h
            cases h
          | some n =>
            obtain ⟨hn, hb⟩ := AtoiFastLoop_digitsValue as n (by omega) hl
            simp only
            rw [hn]
            generalize digitsValue as = d at hb ⊢
            have h18 : (10 : Nat) ^ 18 < 2 ^ 63 := by norm_num
            have hd : d < 2 ^ 63 := by omega
            unfold wrapInt
            omega
      · by_cases hp : a = '+'
        · subst hp
          have hneg : (some '+' == some '-') = false := by decide
          simp only [List.head?_cons, List.tail_cons, beq_self_eq_true, Bool.or_true, if_true,
            Bool.true_and, hneg, Bool.false_eq_true, if_false] at h ⊢
          rw [cellValue_plus]
          by_cases hshort : as.length < 1
          · simp [hshort] at h
          · simp only [hshort, decide_False, Bool.false_eq_true, if_false] at h ⊢
            cases hl : AtoiFastLoop as 0 with
            | none =>
              rw [hl] at h
              cases h
            | some n =>
              obtain ⟨hn, hb⟩ := AtoiFastLoop_digitsValue as n (by omega) hl
              simp only
              rw [hn]
              generalize digitsValue as = d at hb ⊢
              have h18 : (10 : Nat) ^ 18 < 2 ^ 63 := by norm_num
              have hd : d < 2 ^ 63 := by omega
              omega
        · have h1 : (some a == some '+') = false := by simp [hp]
          have h2 : (some a == some '-') = false := by simp [hm]
          simp only [List.head?_cons, h1, h2, Bool.or_false, Bool.false_eq_true, if_false,
            Bool.false_and] at h ⊢
          rw [cellValue_unsigned a as hm hp]
          cases hl : AtoiFastLoop (a :: as) 0 with
          | none =>
            rw [hl] at h
            cases h
          | some n =>
            obtain ⟨hn, hb⟩ :=
              AtoiFastLoop_digitsValue (a :: as) n (by simp only [List.length_cons]; omega) hl
            simp only
            rw [hn]
            generalize digitsValue (a :: as) = d at hb ⊢
            have h18 : (10 : Nat) ^ 18 < 2 ^ 63 := by norm_num
            have hd : d < 2 ^ 63 := by omega
            omega
  · rw [if_neg hfast] at h ⊢
    simp only [Option.map_eq_none'] at h
    obtain ⟨h1, h2, h3⟩ := ParseInt_value s h
    simp only
    rw [h1, wrapInt_eq_self _ h2 h3]
    exact ⟨rfl, h2, h3⟩


/-! ## Sum and Multiply -/

theorem sumRow_eq (row : List String) (a : Int) :
    row.foldl (fun sum val => wrapInt (sum + (Atoi val).1)) (wrapInt a) =
      wrapInt (a + (row.map (fun val => (Atoi val).1)).sum) := by
  induction row generalizing a with
  | nil => simp
  | cons val rest ih =>
    simp only [List.foldl_cons, List.map_cons, List.sum_cons]
    rw [wrapInt_add_wrapInt, ih, add_assoc]

theorem sumRows_eq (rows : List (List String)) (a : Int) :
    rows.foldl (fun sum row => row.foldl (fun sum val => wrapInt (sum + (Atoi val).1)) sum)
        (wrapInt a) =
      wrapInt (a + (rows.flatten.map (fun val => (Atoi val).1)).sum) := by
  induction rows generalizing a with
  | nil => simp
  | cons row rest ih =>
    simp only [List.foldl_cons, List.flatten_cons, List.map_append, List.sum_append]
    rw [sumRow_eq, ih, add_assoc]

theorem atoi_values_eq (records : List (List String))
    (hcells : ∀ row ∈ records, ∀ val ∈ row, (Atoi val).2 = none) :
    records.flatten.map (fun val => (Atoi val).1) = records.flatten.map cellValue := by
  apply List.map_congr_left
  intro val hval
  obtain ⟨row, hrow, hmem⟩ := List.mem_flatten.1 hval
  exact (Atoi_value val (hcells row hrow val hmem)).1

/-- The loop of `SumHandler` computes the exact sum reduced into the range of
`int`. -/
theorem sumCells_eq (records : List (List String))
    (hcells : ∀ row ∈ records, ∀ val ∈ row, (Atoi val).2 = none) :
    sumCells records = wrapInt (exactSum records) := by
  have h0 : (0 : Int) = wrapInt 0 := by
    unfold wrapInt
    norm_num
  unfold sumCells exactSum
  rw [h0, sumRows_eq, atoi_values_eq records hcells, zero_add]

theorem productRow_eq (row : List String) (a : Int)
    (hcells : ∀ val ∈ row, (Atoi val).2 = none) :
    row.foldl (fun product val => product * int64 (Atoi val).1) a =
      a * (row.map cellValue).prod := by
  induction row generalizing a with
  | nil => simp
  | cons val rest ih =>
    obtain ⟨h1, h2, h3⟩ := Atoi_value val (hcells val (by simp))
    simp only [List.foldl_cons, List.map_cons, List.prod_cons]
    rw [ih _ (fun v hv => hcells v (by simp [hv])), int64, h1, wrapInt_eq_self _ h2 h3, mul_assoc]

/-- The loop of `MultiplyHandler` computes the exact product: the conversion
`int64(num)` loses nothing and the big integers do not overflow. -/
theorem productCells_eq (records : List (List String))
    (hcells : ∀ row ∈ records, ∀ val ∈ row, (Atoi val).2 = none) :
    productCells records = exactProduct records := by
  have hgen : ∀ (rows : List (List String)) (a : Int),
      (∀ row ∈ rows, ∀ val ∈ row, (Atoi val).2 = none) →
      rows.foldl (fun product row =>
        row.foldl (fun product val => product * int64 (Atoi val).1) product) a =
        a * (rows.flatten.map cellValue).prod := by
    intro rows
    induction rows with
    | nil => simp
    | cons row rest ih =>
      intro a h
      simp only [List.foldl_cons, List.flatten_cons, List.map_append, List.prod_append]
      rw [productRow_eq row a (h row (by simp)), ih _ (fun r hr => h r (by simp [hr])), mul_assoc]
  unfold productCells exactProduct
  rw [hgen records 1 hcells, one_mul]

/-- C7, as the code has it: on a grid accepted by `ValidateSquareMatrix` whose
arithmetic sum of cell values lies in the range of the 64-bit `int`,
`SumHandler` answers with status 200 and the decimal rendering of that sum
followed by a newline. -/
theorem C7_sum_in_range (Quote : String → String) (records : List (List String))
    (h : ValidateSquareMatrix Quote records = none)
    (hlo : -2 ^ 63 ≤ exactSum records) (hhi : exactSum records < 2 ^ 63) :
    SumHandler Quote (Request.records records) =
      Response.mk 200 (FormatInt (exactSum records) ++ "\n") := by
  obtain ⟨hpos, _, hcells⟩ := validate_accepts Quote records h
  have hne : records.length ≠ 0 := by omega
  unfold SumHandler ParseCSVFile
  simp only [if_neg hne, h]
  rw [writeOK, sumCells_eq records hcells, wrapInt_eq_self _ hlo hhi]

theorem C7_sum_in_range_witness :
    ValidateSquareMatrix quoteASCII [["1", "2"], ["3", "4"]] = none ∧
      -2 ^ 63 ≤ exactSum [["1", "2"], ["3", "4"]] ∧ exactSum [["1", "2"], ["3", "4"]] < 2 ^ 63 ∧
      SumHandler quoteASCII (Request.records [["1", "2"], ["3", "4"]]) =
        Response.mk 200 "10\n" :=
  ⟨by decide, by decide, by decide,
    C7_sum_in_range quoteASCII [["1", "2"], ["3", "4"]] (by decide) (by decide) (by decide)⟩

set_option maxRecDepth 100000 in
/-- C7 as stated fails: the accepted grid `9223372036854775807,1 / 0,0` has the
arithmetic sum `9223372036854775808`, and `SumHandler` prints
`-9223372036854775808`. -/
theorem C7_sum_counterexample :
    ValidateSquareMatrix quoteASCII [["9223372036854775807", "1"], ["0", "0"]] = none ∧
      exactSum [["9223372036854775807", "1"], ["0", "0"]] = 9223372036854775808 ∧
      SumHandler quoteASCII (Request.records [["9223372036854775807", "1"], ["0", "0"]]) =
        Response.mk 200 "-9223372036854775808\n" ∧
      SumHandler quoteASCII (Request.records [["9223372036854775807", "1"], ["0", "0"]]) ≠
        Response.mk 200
          (FormatInt (exactSum [["9223372036854775807", "1"], ["0", "0"]]) ++ "\n") := by
  refine ⟨by decide, by decide, by decide, by decide⟩

/-- C8: on a grid accepted by `ValidateSquareMatrix`, `MultiplyHandler`
answers with status 200 and the decimal rendering of the exact product of all
cell values followed by a newline, whatever the size of the product. -/
theorem C8_multiply_exact (Quote : String → String) (records : List (List String))
    (h : ValidateSquareMatrix Quote records = none) :
    MultiplyHandler Quote (Request.records records) =
      Response.mk 200 (FormatInt (exactProduct records) ++ "\n") := by
  obtain ⟨hpos, _, hcells⟩ := validate_accepts Quote records h
  have hne : records.length ≠ 0 := by omega
  unfold MultiplyHandler ParseCSVFile
  simp only [if_neg hne, h]
  rw [writeOK, productCells_eq records hcells]

theorem C8_multiply_exact_witness :
    ValidateSquareMatrix quoteASCII
        [["9223372036854775807", "9223372036854775807"],
          ["9223372036854775807", "9223372036854775807"]] = none ∧
      MultiplyHandler quoteASCII (Request.records
        [["9223372036854775807", "9223372036854775807"],
          ["9223372036854775807", "9223372036854775807"]]) =
        Response.mk 200
          "7237005577332262210834635695349653859421902880380109739573089701262786560001\n" :=
  ⟨by decide, C8_multiply_exact quoteASCII
    [["9223372036854775807", "9223372036854775807"],
      ["9223372036854775807", "9223372036854775807"]] (by decide)⟩


/-! ## Validation: the first failure -/

theorem headerLoop_first_error (Quote : String → String) (pre : List String) (val : String)
    (post : List String) (err : NumError) (j : Nat)
    (hpre : ∀ x ∈ pre, (Atoi x).2 = none) (hval : (Atoi val).2 = some err) :
    ValidateSquareMatrix.headerLoop Quote j (pre ++ val :: post) =
      some ("matrix has a header row or non-integer value at row 1, column "
        ++ FormatInt (((j + pre.length : Nat) : Int) + 1) ++ ": " ++ err.Error Quote) := by
  induction pre generalizing j with
  | nil =>
    simp only [List.nil_append, List.length_nil, Nat.add_zero]
    rw [ValidateSquareMatrix.headerLoop, hval]
  | cons x xs ih =>
    have hx : (Atoi x).2 = none := hpre x (by simp)
    have hxs : ∀ y ∈ xs, (Atoi y).2 = none := fun y hy => hpre y (by simp [hy])
    have hidx : j + 1 + xs.length = j + (x :: xs).length := by
      simp only [List.length_cons]
      omega
    rw [List.cons_append, ValidateSquareMatrix.headerLoop, hx]
    simp only
    rw [ih (j + 1) hxs, hidx]

theorem rowLoop_first_bad_length (Quote : String → String) (n : Nat)
    (good : List (List String)) (bad : List String) (post : List (List String)) (i : Nat)
    (hgood : ∀ row ∈ good, row.length = n ∧ ∀ x ∈ row, (Atoi x).2 = none)
    (hbad : bad.length ≠ n) :
    ValidateSquareMatrix.rowLoop Quote n i (good ++ bad :: post) =
      some ("matrix is not square: row " ++ FormatInt (((i + good.length : Nat) : Int) + 1)
        ++ " has " ++ FormatInt (bad.length : Int) ++ " columns, expected "
        ++ FormatInt (n : Int)) := by
  induction good generalizing i with
  | nil =>
    simp only [List.nil_append, List.length_nil, Nat.add_zero]
    rw [ValidateSquareMatrix.rowLoop, if_pos hbad]
  | cons row rows ih =>
    obtain ⟨hlen, hcells⟩ := hgood row (by simp)
    have hrows : ∀ r ∈ rows, r.length = n ∧ ∀ x ∈ r, (Atoi x).2 = none :=
      fun r hr => hgood r (by simp [hr])
    have hloop : ValidateSquareMatrix.cellLoop Quote i 0 row = none :=
      (cellLoop_eq_none_iff Quote row i 0).2
        (fun x hx => ⟨Atoi_ok_ne_empty x (hcells x hx), hcells x hx⟩)
    have hidx : i + 1 + rows.length = i + (row :: rows).length := by
      simp only [List.length_cons]
      omega
    have hnot : ¬ row.length ≠ n := fun hne => hne hlen
    rw [List.cons_append, ValidateSquareMatrix.rowLoop, if_neg hnot, hloop]
    simp only
    rw [ih (i + 1) hrows, hidx]

/-- C9: when the first row has a cell that `strconv.Atoi` rejects with error
`err` and all cells before it in that row are accepted, `ValidateSquareMatrix`
fails with `matrix has a header row or non-integer value at row 1, column c:`
followed by the text of `err`, `c` being the 1-based position of that cell,
whatever the rest of the first row and the other rows hold; the empty string is
such a rejected cell. -/
theorem C9_header_error (Quote : String → String) (pre : List String) (val : String)
    (post : List String) (rest : List (List String)) (err : NumError)
    (hpre : ∀ x ∈ pre, (Atoi x).2 = none) (hval : (Atoi val).2 = some err) :
    ValidateSquareMatrix Quote ((pre ++ val :: post) :: rest) =
        some ("matrix has a header row or non-integer value at row 1, column "
          ++ FormatInt ((pre.length : Int) + 1) ++ ": " ++ err.Error Quote) ∧
      (Atoi "").2 = some (syntaxError "Atoi" "") := by
  refine ⟨?_, Atoi_empty⟩
  have hloop := headerLoop_first_error Quote pre val post err 0 hpre hval
  rw [Nat.zero_add] at hloop
  unfold ValidateSquareMatrix
  simp only [hloop]

theorem C9_header_error_witness :
    (∀ x ∈ ["1"], (Atoi x).2 = none) ∧ (Atoi "").2 = some (syntaxError "Atoi" "") ∧
      (ValidateSquareMatrix quoteASCII ((["1"] ++ "" :: ["x"]) :: [["7"], []]) =
          some ("matrix has a header row or non-integer value at row 1, column 2: "
            ++ "strconv.Atoi: parsing \"\": invalid syntax") ∧
        (Atoi "").2 = some (syntaxError "Atoi" "")) :=
  ⟨by decide, by decide,
    C9_header_error quoteASCII ["1"] "" ["x"] [["7"], []] (syntaxError "Atoi" "")
      (by decide) (by decide)⟩

/-- C10, as the code has it: when the first row and the rows after it up to
some row hold only cells accepted by `strconv.Atoi` and have the length of the
first row, and the next row has a different length, `ValidateSquareMatrix`
fails with `matrix is not square: row r has k columns, expected n`, a message
containing `not square`, where `r` is the 1-based number of that row, `k` its
length and `n` the length of the first row. -/
theorem C10_row_length_error (Quote : String → String) (row0 : List String)
    (mid : List (List String)) (bad : List String) (post : List (List String))
    (h0 : ∀ x ∈ row0, (Atoi x).2 = none)
    (hmid : ∀ row ∈ mid, row.length = row0.length ∧ ∀ x ∈ row, (Atoi x).2 = none)
    (hbad : bad.length ≠ row0.length) :
    ValidateSquareMatrix Quote (row0 :: (mid ++ bad :: post)) =
        some ("matrix is not square: row " ++ FormatInt ((mid.length : Int) + 2)
          ++ " has " ++ FormatInt (bad.length : Int) ++ " columns, expected "
          ++ FormatInt (row0.length : Int)) ∧
      "not square".data <:+:
        ("matrix is not square: row " ++ FormatInt ((mid.length : Int) + 2)
          ++ " has " ++ FormatInt (bad.length : Int) ++ " columns, expected "
          ++ FormatInt (row0.length : Int)).data := by
  constructor
  · have hhead : ValidateSquareMatrix.headerLoop Quote 0 row0 = none :=
      (headerLoop_eq_none_iff Quote row0 0).2 h0
    have hgood : ∀ row ∈ row0 :: mid, row.length = row0.length ∧ ∀ x ∈ row, (Atoi x).2 = none := by
      intro row hrow
      rcases List.mem_cons.1 hrow with rfl | hrow
      · exact ⟨rfl, h0⟩
      · exact hmid row hrow
    have hloop := rowLoop_first_bad_length Quote row0.length (row0 :: mid) bad post 0 hgood hbad
    have hidx : (((0 + (row0 :: mid).length : Nat) : Int) + 1) = (mid.length : Int) + 2 := by
      simp only [List.length_cons]
      push_cast
      ring
    rw [hidx, List.cons_append] at hloop
    unfold ValidateSquareMatrix
    simp only [hhead, hloop]
  · refine ⟨"matrix is ".data, (": row " ++ FormatInt ((mid.length : Int) + 2)
      ++ " has " ++ FormatInt (bad.length : Int) ++ " columns, expected "
      ++ FormatInt (row0.length : Int)).data, ?_⟩
    simp only [String.data_append, List.append_assoc]
    rfl

theorem C10_row_length_error_witness :
    (∀ x ∈ ["1", "2", "3"], (Atoi x).2 = none) ∧
      (∀ row ∈ [["4", "5", "6"]],
        row.length = ["1", "2", "3"].length ∧ ∀ x ∈ row, (Atoi x).2 = none) ∧
      ["7", "8"].length ≠ ["1", "2", "3"].length ∧
      (ValidateSquareMatrix quoteASCII
          (["1", "2", "3"] :: ([["4", "5", "6"]] ++ ["7", "8"] :: [["9", "x", ""]])) =
          some "matrix is not square: row 3 has 2 columns, expected 3" ∧
        "not square".data <:+: "matrix is not square: row 3 has 2 columns, expected 3".data) :=
  ⟨by decide, by decide, by decide,
    C10_row_length_error quoteASCII ["1", "2", "3"] [["4", "5", "6"]] ["7", "8"]
      [["9", "x", ""]] (by decide) (by decide) (by decide)⟩

/-- C10 as stated fails: in the grid `1,2 / ,3 / 4` the third row has a length
different from the first, and `ValidateSquareMatrix` fails on the empty cell of
the second row with a message that does not contain `not square`. -/
theorem C10_row_length_counterexample :
    (∃ row ∈ [["1", "2"], ["", "3"], ["4"]], row.length ≠ ["1", "2"].length) ∧
      ValidateSquareMatrix quoteASCII [["1", "2"], ["", "3"], ["4"]] =
        some "matrix has empty value at row 2, column 1" ∧
      ¬ ("not square".data <:+: "matrix has empty value at row 2, column 1".data) := by
  refine ⟨⟨["4"], by simp, by decide⟩, by decide, by decide⟩


/-! ## Validation: the order of the checks -/

theorem rowLoop_skip_good (Quote : String → String) (n : Nat)
    (good rest : List (List String)) (i : Nat)
    (hgood : ∀ row ∈ good, row.length = n ∧ ∀ x ∈ row, (Atoi x).2 = none) :
    ValidateSquareMatrix.rowLoop Quote n i (good ++ rest) =
      ValidateSquareMatrix.rowLoop Quote n (i + good.length) rest := by
  induction good generalizing i with
  | nil => simp
  | cons row rows ih =>
    obtain ⟨hlen, hcells⟩ := hgood row (by simp)
    have hrows : ∀ r ∈ rows, r.length = n ∧ ∀ x ∈ r, (Atoi x).2 = none :=
      fun r hr => hgood r (by simp [hr])
    have hloop : ValidateSquareMatrix.cellLoop Quote i 0 row = none :=
      (cellLoop_eq_none_iff Quote row i 0).2
        (fun x hx => ⟨Atoi_ok_ne_empty x (hcells x hx), hcells x hx⟩)
    have hidx : i + 1 + rows.length = i + (row :: rows).length := by
      simp only [List.length_cons]
      omega
    have hnot : ¬ row.length ≠ n := fun hne => hne hlen
    rw [List.cons_append, ValidateSquareMatrix.rowLoop, if_neg hnot, hloop]
    simp only
    rw [ih (i + 1) hrows, hidx]

theorem cellLoop_first_error (Quote : String → String) (pre : List String) (val : String)
    (post : List String) (err : NumError) (i j : Nat)
    (hpre : ∀ x ∈ pre, (Atoi x).2 = none) (hval : (Atoi val).2 = some err) :
    ValidateSquareMatrix.cellLoop Quote i j (pre ++ val :: post) =
      some (if val = "" then
          "matrix has empty value at row " ++ FormatInt ((i : Int) + 1)
            ++ ", column " ++ FormatInt (((j + pre.length : Nat) : Int) + 1)
        else
          "matrix value at row " ++ FormatInt ((i : Int) + 1) ++ ", column "
            ++ FormatInt (((j + pre.length : Nat) : Int) + 1) ++ " is not an integer: "
            ++ err.Error Quote) := by
  induction pre generalizing j with
  | nil =>
    simp only [List.nil_append, List.length_nil, Nat.add_zero]
    rw [ValidateSquareMatrix.cellLoop]
    by_cases hv : val = ""
    · rw [if_pos hv, if_pos hv]
    · rw [if_neg hv, if_neg hv, hval]
  | cons x xs ih =>
    have hx : (Atoi x).2 = none := hpre x (by simp)
    have hxs : ∀ y ∈ xs, (Atoi y).2 = none := fun y hy => hpre y (by simp [hy])
    have hidx : j + 1 + xs.length = j + (x :: xs).length := by
      simp only [List.length_cons]
      omega
    rw [List.cons_append, ValidateSquareMatrix.cellLoop, if_neg (Atoi_ok_ne_empty x hx), hx]
    simp only
    rw [ih (j + 1) hxs, hidx]

theorem split_at_index (records : List (List String)) (i : Nat) (rowi : List String)
    (hi : records[i]? = some rowi) :
    records = records.take i ++ rowi :: records.drop (i + 1) ∧ (records.take i).length = i := by
  obtain ⟨hlt, heq⟩ := List.getElem?_eq_some.1 hi
  constructor
  · conv_lhs => rw [← List.take_append_drop i records, List.drop_eq_getElem_cons hlt, heq]
  · rw [List.length_take]
    omega

/-- C11: when every cell of row 0 is accepted, row `i` is the first row whose
length differs from the length `N` of row 0 (the rows `0..i-1` have length
`N`), and every cell of the rows `0..i-1` is accepted, `ValidateSquareMatrix`
fails with exactly
`matrix is not square: row <i+1> has <len(row i)> columns, expected <N>`,
whatever row `i` and the rows after it hold. -/
theorem C11_width_check_first (Quote : String → String) (records : List (List String))
    (row0 rowi : List String) (i : Nat)
    (h0 : records[0]? = some row0) (hi : records[i]? = some rowi)
    (hrow0 : ∀ x ∈ row0, (Atoi x).2 = none)
    (hbad : rowi.length ≠ row0.length)
    (hbefore : ∀ row ∈ records.take i,
      row.length = row0.length ∧ ∀ x ∈ row, (Atoi x).2 = none) :
    ValidateSquareMatrix Quote records =
      some ("matrix is not square: row " ++ FormatInt ((i : Int) + 1) ++ " has "
        ++ FormatInt (rowi.length : Int) ++ " columns, expected "
        ++ FormatInt (row0.length : Int)) := by
  obtain ⟨hsplit, htake⟩ := split_at_index records i rowi hi
  have hloop : ValidateSquareMatrix.rowLoop Quote row0.length 0 records =
      some ("matrix is not square: row " ++ FormatInt ((i : Int) + 1) ++ " has "
        ++ FormatInt (rowi.length : Int) ++ " columns, expected "
        ++ FormatInt (row0.length : Int)) := by
    rw [hsplit, rowLoop_skip_good Quote row0.length _ _ 0 hbefore, htake, Nat.zero_add,
      ValidateSquareMatrix.rowLoop, if_pos hbad]
  cases records with
  | nil => simp at h0
  | cons r rest =>
    have hr : r = row0 := by simpa using h0
    subst hr
    have hhead : ValidateSquareMatrix.headerLoop Quote 0 r = none :=
      (headerLoop_eq_none_iff Quote r 0).2 hrow0
    unfold ValidateSquareMatrix
    simp only [hhead, hloop]

theorem C11_width_check_first_witness :
    ([["1", "2", "3"], ["4", "5", "6"], ["7", "x"], [""]] : List (List String))[0]? =
        some ["1", "2", "3"] ∧
      ([["1", "2", "3"], ["4", "5", "6"], ["7", "x"], [""]] : List (List String))[2]? =
        some ["7", "x"] ∧
      (∀ x ∈ ["1", "2", "3"], (Atoi x).2 = none) ∧
      ["7", "x"].length ≠ ["1", "2", "3"].length ∧
      (∀ row ∈ ([["1", "2", "3"], ["4", "5", "6"], ["7", "x"], [""]] : List (List String)).take 2,
        row.length = ["1", "2", "3"].length ∧ ∀ x ∈ row, (Atoi x).2 = none) ∧
      ValidateSquareMatrix quoteASCII [["1", "2", "3"], ["4", "5", "6"], ["7", "x"], [""]] =
        some "matrix is not square: row 3 has 2 columns, expected 3" :=
  ⟨by decide, by decide, by decide, by decide, by decide,
    C11_width_check_first quoteASCII [["1", "2", "3"], ["4", "5", "6"], ["7", "x"], [""]]
      ["1", "2", "3"] ["7", "x"] 2 (by decide) (by decide) (by decide) (by decide)
      (by decide)⟩

/-- C12: when every cell of row 0 is accepted, the rows between row 0 and row
`i` have the length `N` of row 0 and hold only accepted cells, row `i` has
length `N`, its cells before column `j` are accepted and its cell `j` is
rejected by `strconv.Atoi` with error `err` (so `(i, j)` is the first rejected
cell in row-major order), `ValidateSquareMatrix` fails with
`matrix has empty value at row <i+1>, column <j+1>` when that cell is the empty
string and with `matrix value at row <i+1>, column <j+1> is not an integer:`
followed by the text of `err` otherwise. Here `i = mid.length + 1` and
`j = pre.length`. -/
theorem C12_first_offending_cell (Quote : String → String) (row0 : List String)
    (mid : List (List String)) (pre : List String) (val : String) (post : List String)
    (rest : List (List String)) (err : NumError)
    (h0 : ∀ x ∈ row0, (Atoi x).2 = none)
    (hmid : ∀ row ∈ mid, row.length = row0.length ∧ ∀ x ∈ row, (Atoi x).2 = none)
    (hlen : (pre ++ val :: post).length = row0.length)
    (hpre : ∀ x ∈ pre, (Atoi x).2 = none) (hval : (Atoi val).2 = some err) :
    ValidateSquareMatrix Quote (row0 :: (mid ++ (pre ++ val :: post) :: rest)) =
      some (if val = "" then
          "matrix has empty value at row " ++ FormatInt ((mid.length : Int) + 2)
            ++ ", column " ++ FormatInt ((pre.length : Int) + 1)
        else
          "matrix value at row " ++ FormatInt ((mid.length : Int) + 2) ++ ", column "
            ++ FormatInt ((pre.length : Int) + 1) ++ " is not an integer: "
            ++ err.Error Quote) := by
  have hhead : ValidateSquareMatrix.headerLoop Quote 0 row0 = none :=
    (headerLoop_eq_none_iff Quote row0 0).2 h0
  have hgood : ∀ row ∈ row0 :: mid,
      row.length = row0.length ∧ ∀ x ∈ row, (Atoi x).2 = none := by
    intro row hrow
    rcases List.mem_cons.1 hrow with rfl | hrow
    · exact ⟨rfl, h0⟩
    · exact hmid row hrow
  have hcell := cellLoop_first_error Quote pre val post err (row0 :: mid).length 0 hpre hval
  have hrowidx : ((((row0 :: mid).length : Nat) : Int) + 1) = (mid.length : Int) + 2 := by
    simp only [List.length_cons]
    push_cast
    ring
  rw [hrowidx] at hcell
  simp only [Nat.zero_add] at hcell
  have hnot : ¬ (pre ++ val :: post).length ≠ row0.length := fun hne => hne hlen
  have hloop := rowLoop_skip_good Quote row0.length (row0 :: mid)
    ((pre ++ val :: post) :: rest) 0 hgood
  rw [Nat.zero_add, ValidateSquareMatrix.rowLoop, if_neg hnot, hcell, List.cons_append] at hloop
  unfold ValidateSquareMatrix
  simp only [hhead, hloop]

theorem C12_first_offending_cell_witness :
    ((∀ x ∈ ["1", "2", "3"], (Atoi x).2 = none) ∧
      (∀ row ∈ [["4", "5", "6"]],
        row.length = ["1", "2", "3"].length ∧ ∀ x ∈ row, (Atoi x).2 = none) ∧
      (["7", "8"] ++ "" :: []).length = ["1", "2", "3"].length ∧
      (∀ x ∈ ["7", "8"], (Atoi x).2 = none) ∧
      (Atoi "").2 = some (syntaxError "Atoi" "") ∧
      ValidateSquareMatrix quoteASCII
          (["1", "2", "3"] :: ([["4", "5", "6"]] ++ (["7", "8"] ++ "" :: []) :: [])) =
        some "matrix has empty value at row 3, column 3") ∧
    ((∀ x ∈ ["1", "2", "3"], (Atoi x).2 = none) ∧
      (["4"] ++ "A" :: ["6"]).length = ["1", "2", "3"].length ∧
      (∀ x ∈ ["4"], (Atoi x).2 = none) ∧
      (Atoi "A").2 = some (syntaxError "Atoi" "A") ∧
      ValidateSquareMatrix quoteASCII
          (["1", "2", "3"] :: ([] ++ (["4"] ++ "A" :: ["6"]) :: [["7", "8", "9"]])) =
        some ("matrix value at row 2, column 2 is not an integer: "
          ++ "strconv.Atoi: parsing \"A\": invalid syntax")) :=
  ⟨⟨by decide, by decide, by decide, by decide, by decide,
      C12_first_offending_cell quoteASCII ["1", "2", "3"] [["4", "5", "6"]] ["7", "8"] "" []
        [] (syntaxError "Atoi" "") (by decide) (by decide) (by decide) (by decide)
        (by decide)⟩,
    ⟨by decide, by decide, by decide, by decide,
      C12_first_offending_cell quoteASCII ["1", "2", "3"] [] ["4"] "A" ["6"]
        [["7", "8", "9"]] (syntaxError "Atoi" "A") (by decide) (by simp) (by decide)
        (by decide) (by decide)⟩⟩

/-- C13: for a non-empty grid whose `R` rows all have the length `N` of row 0
and whose cells are all accepted by `strconv.Atoi`, with `R ≠ N`,
`ValidateSquareMatrix` fails with exactly
`matrix is not square: <R> rows and <N> columns`, for `R > N` and for `R < N`
alike. -/
theorem C13_row_count_error (Quote : String → String) (row0 : List String)
    (rest : List (List String))
    (hlen : ∀ row ∈ row0 :: rest, row.length = row0.length)
    (hcells : ∀ row ∈ row0 :: rest, ∀ x ∈ row, (Atoi x).2 = none)
    (hne : (row0 :: rest).length ≠ row0.length) :
    ValidateSquareMatrix Quote (row0 :: rest) =
      some ("matrix is not square: " ++ FormatInt ((row0 :: rest).length : Int)
        ++ " rows and " ++ FormatInt (row0.length : Int) ++ " columns") := by
  have hhead : ValidateSquareMatrix.headerLoop Quote 0 row0 = none :=
    (headerLoop_eq_none_iff Quote row0 0).2 (hcells row0 (by simp))
  have hloop : ValidateSquareMatrix.rowLoop Quote row0.length 0 (row0 :: rest) = none := by
    apply (rowLoop_eq_none_iff Quote row0.length (row0 :: rest) 0).2
    intro row hrow
    refine ⟨hlen row hrow, ?_⟩
    intro x hx
    exact ⟨Atoi_ok_ne_empty x (hcells row hrow x hx), hcells row hrow x hx⟩
  unfold ValidateSquareMatrix
  simp only [hhead, hloop]
  rw [if_pos hne]

theorem C13_row_count_error_witness :
    ((∀ row ∈ [["1", "2"], ["3", "4"], ["5", "6"]], row.length = ["1", "2"].length) ∧
      (∀ row ∈ [["1", "2"], ["3", "4"], ["5", "6"]], ∀ x ∈ row, (Atoi x).2 = none) ∧
      (["1", "2"] :: [["3", "4"], ["5", "6"]]).length ≠ ["1", "2"].length ∧
      ValidateSquareMatrix quoteASCII (["1", "2"] :: [["3", "4"], ["5", "6"]]) =
        some "matrix is not square: 3 rows and 2 columns") ∧
    ((∀ row ∈ [["1", "2", "3"], ["4", "5", "6"]], row.length = ["1", "2", "3"].length) ∧
      (∀ row ∈ [["1", "2", "3"], ["4", "5", "6"]], ∀ x ∈ row, (Atoi x).2 = none) ∧
      (["1", "2", "3"] :: [["4", "5", "6"]]).length ≠ ["1", "2", "3"].length ∧
      ValidateSquareMatrix quoteASCII (["1", "2", "3"] :: [["4", "5", "6"]]) =
        some "matrix is not square: 2 rows and 3 columns") :=
  ⟨⟨by decide, by decide, by decide,
      C13_row_count_error quoteASCII ["1", "2"] [["3", "4"], ["5", "6"]] (by decide)
        (by decide) (by decide)⟩,
    ⟨by decide, by decide, by decide,
      C13_row_count_error quoteASCII ["1", "2", "3"] [["4", "5", "6"]] (by decide)
        (by decide) (by decide)⟩⟩


/-! ## The handlers on a rejected grid -/

theorem EchoHandler_ok_only (Quote : String → String) (r : Request)
    (h : (EchoHandler Quote r).status = 200) :
    ∃ records, ParseCSVFile r = Except.ok records ∧ ValidateSquareMatrix Quote records = none := by
  unfold EchoHandler at h
  cases hp : ParseCSVFile r with
  | error err =>
    rw [hp] at h
    simp [httpError] at h
  | ok records =>
    rw [hp] at h
    simp only at h
    cases hv : ValidateSquareMatrix Quote records with
    | some err =>
      rw [hv] at h
      simp [httpError] at h
    | none => exact ⟨records, rfl, hv⟩

theorem InvertHandler_ok_only (Quote : String → String) (r : Request) (resp : Response)
    (hr : InvertHandler Quote r = some resp) (h : resp.status = 200) :
    ∃ records, ParseCSVFile r = Except.ok records ∧ ValidateSquareMatrix Quote records = none := by
  unfold InvertHandler at hr
  cases hp : ParseCSVFile r with
  | error err =>
    rw [hp] at hr
    simp only [Option.some.injEq] at hr
    rw [← hr] at h
    simp [httpError] at h
  | ok records =>
    rw [hp] at hr
    simp only at hr
    cases hv : ValidateSquareMatrix Quote records with
    | some err =>
      rw [hv] at hr
      simp only [Option.some.injEq] at hr
      rw [← hr] at h
      simp [httpError] at h
    | none => exact ⟨records, rfl, hv⟩

theorem FlattenHandler_ok_only (Quote : String → String) (r : Request)
    (h : (FlattenHandler Quote r).status = 200) :
    ∃ records, ParseCSVFile r = Except.ok records ∧ ValidateSquareMatrix Quote records = none := by
  unfold FlattenHandler at h
  cases hp : ParseCSVFile r with
  | error err =>
    rw [hp] at h
    simp [httpError] at h
  | ok records =>
    rw [hp] at h
    simp only at h
    cases hv : ValidateSquareMatrix Quote records with
    | some err =>
      rw [hv] at h
      simp [httpError] at h
    | none => exact ⟨records, rfl, hv⟩

theorem SumHandler_ok_only (Quote : String → String) (r : Request)
    (h : (SumHandler Quote r).status = 200) :
    ∃ records, ParseCSVFile r = Except.ok records ∧ ValidateSquareMatrix Quote records = none := by
  unfold SumHandler at h
  cases hp : ParseCSVFile r with
  | error err =>
    rw [hp] at h
    simp [httpError] at h
  | ok records =>
    rw [hp] at h
    simp only at h
    cases hv : ValidateSquareMatrix Quote records with
    | some err =>
      rw [hv] at h
      simp [httpError] at h
    | none => exact ⟨records, rfl, hv⟩

theorem MultiplyHandler_ok_only (Quote : String → String) (r : Request)
    (h : (MultiplyHandler Quote r).status = 200) :
    ∃ records, ParseCSVFile r = Except.ok records ∧ ValidateSquareMatrix Quote records = none := by
  unfold MultiplyHandler at h
  cases hp : ParseCSVFile r with
  | error err =>
    rw [hp] at h
    simp [httpError] at h
  | ok records =>
    rw [hp] at h
    simp only at h
    cases hv : ValidateSquareMatrix Quote records with
    | some err =>
      rw [hv] at h
      simp [httpError] at h
    | none => exact ⟨records, rfl, hv⟩

/-- C14, as the code has it: when `ParseCSVFile` returns a grid on which
`ValidateSquareMatrix` returns the error `e`, each of the five handlers answers
with status 400 and a body that is the message of `e` followed by a newline
(`http.Error` prints the message with `fmt.Fprintln`) and nothing else, so the
five responses are identical; and a handler answers with status 200 only for a
request whose grid passes validation. -/
theorem C14_error_responses (Quote : String → String) (r : Request)
    (records : List (List String)) (e : String)
    (hparse : ParseCSVFile r = Except.ok records)
    (hval : ValidateSquareMatrix Quote records = some e) :
    (EchoHandler Quote r = Response.mk 400 (e ++ "\n") ∧
      InvertHandler Quote r = some (Response.mk 400 (e ++ "\n")) ∧
      FlattenHandler Quote r = Response.mk 400 (e ++ "\n") ∧
      SumHandler Quote r = Response.mk 400 (e ++ "\n") ∧
      MultiplyHandler Quote r = Response.mk 400 (e ++ "\n")) ∧
    ∀ q : Request,
      ((EchoHandler Quote q).status = 200 ∨
        (∃ resp, InvertHandler Quote q = some resp ∧ resp.status = 200) ∨
        (FlattenHandler Quote q).status = 200 ∨ (SumHandler Quote q).status = 200 ∨
        (MultiplyHandler Quote q).status = 200) →
      ∃ grid, ParseCSVFile q = Except.ok grid ∧ ValidateSquareMatrix Quote grid = none := by
  refine ⟨⟨?_, ?_, ?_, ?_, ?_⟩, ?_⟩
  · unfold EchoHandler
    rw [hparse]
    simp only [hval, httpError]
  · unfold InvertHandler
    rw [hparse]
    simp only [hval, httpError]
  · unfold FlattenHandler
    rw [hparse]
    simp only [hval, httpError]
  · unfold SumHandler
    rw [hparse]
    simp only [hval, httpError]
  · unfold MultiplyHandler
    rw [hparse]
    simp only [hval, httpError]
  · intro q hq
    rcases hq with h | ⟨resp, hr, h⟩ | h | h | h
    · exact EchoHandler_ok_only Quote q h
    · exact InvertHandler_ok_only Quote q resp hr h
    · exact FlattenHandler_ok_only Quote q h
    · exact SumHandler_ok_only Quote q h
    · exact MultiplyHandler_ok_only Quote q h

theorem C14_error_responses_witness :
    ParseCSVFile (Request.records [["1", "2"], ["3"]]) = Except.ok [["1", "2"], ["3"]] ∧
      ValidateSquareMatrix quoteASCII [["1", "2"], ["3"]] =
        some "matrix is not square: row 2 has 1 columns, expected 2" ∧
      ((EchoHandler quoteASCII (Request.records [["1", "2"], ["3"]]) =
          Response.mk 400 ("matrix is not square: row 2 has 1 columns, expected 2" ++ "\n") ∧
        InvertHandler quoteASCII (Request.records [["1", "2"], ["3"]]) =
          some (Response.mk 400
            ("matrix is not square: row 2 has 1 columns, expected 2" ++ "\n")) ∧
        FlattenHandler quoteASCII (Request.records [["1", "2"], ["3"]]) =
          Response.mk 400 ("matrix is not square: row 2 has 1 columns, expected 2" ++ "\n") ∧
        SumHandler quoteASCII (Request.records [["1", "2"], ["3"]]) =
          Response.mk 400 ("matrix is not square: row 2 has 1 columns, expected 2" ++ "\n") ∧
        MultiplyHandler quoteASCII (Request.records [["1", "2"], ["3"]]) =
          Response.mk 400 ("matrix is not square: row 2 has 1 columns, expected 2" ++ "\n")) ∧
      ∀ q : Request,
        ((EchoHandler quoteASCII q).status = 200 ∨
          (∃ resp, InvertHandler quoteASCII q = some resp ∧ resp.status = 200) ∨
          (FlattenHandler quoteASCII q).status = 200 ∨ (SumHandler quoteASCII q).status = 200 ∨
          (MultiplyHandler quoteASCII q).status = 200) →
        ∃ grid, ParseCSVFile q = Except.ok grid ∧
          ValidateSquareMatrix quoteASCII grid = none) :=
  ⟨rfl, by decide,
    C14_error_responses quoteASCII (Request.records [["1", "2"], ["3"]]) [["1", "2"], ["3"]]
      "matrix is not square: row 2 has 1 columns, expected 2" rfl (by decide)⟩

/-- C14 as stated fails on the body: for the grid `1,2 / 3` the validation
error is `matrix is not square: row 2 has 1 columns, expected 2`, and the body
of the `EchoHandler` response is that message followed by a newline, not the
message itself. -/
theorem C14_error_body_counterexample :
    ParseCSVFile (Request.records [["1", "2"], ["3"]]) = Except.ok [["1", "2"], ["3"]] ∧
      ValidateSquareMatrix quoteASCII [["1", "2"], ["3"]] =
        some "matrix is not square: row 2 has 1 columns, expected 2" ∧
      EchoHandler quoteASCII (Request.records [["1", "2"], ["3"]]) =
        Response.mk 400 "matrix is not square: row 2 has 1 columns, expected 2\n" ∧
      (EchoHandler quoteASCII (Request.records [["1", "2"], ["3"]])).body ≠
        "matrix is not square: row 2 has 1 columns, expected 2" := by
  refine ⟨rfl, by decide, by decide, by decide⟩


/-! ## What `strconv.Atoi` accepts: the shape and the range -/

theorem isDecimalNumeral_minus (cs : List Char) :
    isDecimalNumeral (String.mk ('-' :: cs)) = isDigits cs := rfl

theorem isDecimalNumeral_plus (cs : List Char) :
    isDecimalNumeral (String.mk ('+' :: cs)) = isDigits cs := rfl

theorem isDecimalNumeral_unsigned (a : Char) (cs : List Char) (hm : a ≠ '-') (hp : a ≠ '+') :
    isDecimalNumeral (String.mk (a :: cs)) = isDigits (a :: cs) := by
  unfold isDecimalNumeral
  split
  · rename_i heq
    simp only [List.cons.injEq] at heq
    exact absurd heq.1 hm
  · rename_i heq
    simp only [List.cons.injEq] at heq
    exact absurd heq.1 hp
  · rfl

theorem isDigits_iff (cs : List Char) :
    isDigits cs = true ↔ cs ≠ [] ∧ ∀ c ∈ cs, c.isDigit = true := by
  unfold isDigits
  cases cs with
  | nil => simp
  | cons a as => simp

theorem foldl_digits_ge (cs : List Char) (n : Nat) :
    n ≤ cs.foldl (fun n c => n * 10 + (c.toNat - 48)) n := by
  induction cs generalizing n with
  | nil => simp
  | cons c cs ih =>
    rw [List.foldl_cons]
    have := ih (n * 10 + (c.toNat - 48))
    omega

theorem AtoiFastLoop_complete (cs : List Char) (n : Int) (h : ∀ c ∈ cs, c.isDigit = true) :
    ∃ v, AtoiFastLoop cs n = some v := by
  induction cs generalizing n with
  | nil => exact ⟨n, rfl⟩
  | cons c cs ih =>
    unfold AtoiFastLoop
    rw [if_pos (h c (by simp))]
    exact ih _ (fun x hx => h x (by simp [hx]))

theorem ParseUintLoop_complete (s0 : String) (cs : List Char) (n : Nat)
    (h : ∀ c ∈ cs, c.isDigit = true)
    (hfit : cs.foldl (fun n c => n * 10 + (c.toNat - 48)) n < 2 ^ 64) :
    (ParseUintLoop s0 cs n).2 = none := by
  induction cs generalizing n with
  | nil => rfl
  | cons c cs ih =>
    have hc : c.isDigit = true := h c (by simp)
    obtain ⟨hd1, hd2⟩ := isDigit_toNat c hc
    rw [List.foldl_cons] at hfit
    have hge := foldl_digits_ge cs (n * 10 + (c.toNat - 48))
    have hcut : ¬ n ≥ maxUint64 / 10 + 1 := by
      unfold maxUint64
      omega
    have hstep : (n * 10 % 2 ^ 64 + (c.toNat - 48)) % 2 ^ 64 = n * 10 + (c.toNat - 48) := by
      omega
    have hov : ¬ ((n * 10 % 2 ^ 64 + (c.toNat - 48)) % 2 ^ 64 < n * 10 % 2 ^ 64 ∨
        (n * 10 % 2 ^ 64 + (c.toNat - 48)) % 2 ^ 64 > maxUint64) := by
      unfold maxUint64
      omega
    unfold ParseUintLoop
    rw [if_pos hc, if_neg hcut]
    simp only
    rw [if_neg hov, hstep]
    exact ih _ (fun x hx => h x (by simp [hx])) hfit

theorem ParseUint_complete (s : String) (hne : s.data ≠ [])
    (h : ∀ c ∈ s.data, c.isDigit = true) (hfit : digitsValue s.data < 2 ^ 64) :
    (ParseUint s).2 = none := by
  have hs : s ≠ "" := by
    intro heq
    rw [heq] at hne
    exact hne rfl
  unfold ParseUint
  rw [if_neg hs]
  exact ParseUintLoop_complete s s.data 0 h hfit

theorem ParseUint_ok_ne (s : String) (h : (ParseUint s).2 = none) : s.data ≠ [] := by
  intro hnil
  have hs : s = "" := by
    obtain ⟨data⟩ := s
    simp only at hnil
    rw [hnil]
  unfold ParseUint at h
  rw [if_pos hs] at h
  cases h

theorem ParseInt_ok_numeral (s : String) (h : (ParseInt s).2 = none) :
    isDecimalNumeral s = true := by
  obtain ⟨hs, hmag⟩ := ParseInt_ok_magnitude s h
  have hd := ParseUint_ok _ hmag
  have hne := ParseUint_ok_ne _ hmag
  obtain ⟨data⟩ := s
  cases data with
  | nil => exact absurd rfl hs
  | cons a as =>
    simp only [List.head?_cons, List.tail_cons] at hd hne
    by_cases hm : a = '-'
    · subst hm
      simp only [beq_self_eq_true, Bool.or_true, if_true] at hd hne
      rw [isDecimalNumeral_minus]
      exact (isDigits_iff as).2 ⟨hne, hd⟩
    · by_cases hp : a = '+'
      · subst hp
        simp only [beq_self_eq_true, Bool.true_or, if_true] at hd hne
        rw [isDecimalNumeral_plus]
        exact (isDigits_iff as).2 ⟨hne, hd⟩
      · have hcond : ((some a == some '+' || some a == some '-') = true) = False := by
          simp [hp, hm]
        simp only [hcond, if_false] at hd hne
        rw [isDecimalNumeral_unsigned a as hm hp]
        exact (isDigits_iff (a :: as)).2 ⟨hne, hd⟩

theorem ParseInt_complete (s : String) (hnum : isDecimalNumeral s = true)
    (hlo : -2 ^ 63 ≤ cellValue s) (hhi : cellValue s < 2 ^ 63) : (ParseInt s).2 = none := by
  obtain ⟨data⟩ := s
  cases data with
  | nil => simp [isDecimalNumeral, isDigits] at hnum
  | cons a as =>
    have hs : (String.mk (a :: as)) ≠ "" := by
      intro heq
      have hdata := congrArg String.data heq
      cases hdata
    unfold ParseInt
    rw [if_neg hs]
    simp only [List.head?_cons, List.tail_cons]
    by_cases hm : a = '-'
    · subst hm
      rw [isDecimalNumeral_minus] at hnum
      rw [cellValue_minus] at hlo hhi
      obtain ⟨hne, hd⟩ := (isDigits_iff as).1 hnum
      have hfit : digitsValue (String.mk as).data < 2 ^ 64 := by
        simp only
        omega
      have hmag := ParseUint_complete (String.mk as) hne hd hfit
      have hval := ParseUint_value (String.mk as) hmag
      simp only [beq_self_eq_true, Bool.or_true, if_true, Bool.not_true, Bool.false_and,
        Bool.true_and]
      rw [hmag]
      simp only
      rw [hval]
      have hbig : ¬ 2 ^ 63 < digitsValue as := by omega
      simp only [gt_iff_lt, decide_eq_true_eq]
      rw [if_neg Bool.false_ne_true, if_neg hbig]
    · by_cases hp : a = '+'
      · subst hp
        rw [isDecimalNumeral_plus] at hnum
        rw [cellValue_plus] at hlo hhi
        obtain ⟨hne, hd⟩ := (isDigits_iff as).1 hnum
        have hfit : digitsValue (String.mk as).data < 2 ^ 64 := by
          simp only
          omega
        have hmag := ParseUint_complete (String.mk as) hne hd hfit
        have hval := ParseUint_value (String.mk as) hmag
        have hneg : (some '+' == some '-') = false := by decide
        simp only [beq_self_eq_true, Bool.true_or, if_true, hneg, Bool.not_false,
          Bool.true_and, Bool.false_and]
        rw [hmag]
        simp only
        rw [hval]
        have hbig : ¬ 2 ^ 63 ≤ digitsValue as := by omega
        simp only [ge_iff_le, decide_eq_true_eq]
        rw [if_neg hbig, if_neg Bool.false_ne_true]
      · rw [isDecimalNumeral_unsigned a as hm hp] at hnum
        rw [cellValue_unsigned a as hm hp] at hlo hhi
        obtain ⟨hne, hd⟩ := (isDigits_iff (a :: as)).1 hnum
        have hfit : digitsValue (String.mk (a :: as)).data < 2 ^ 64 := by
          simp only
          omega
        have hmag := ParseUint_complete (String.mk (a :: as)) hne hd hfit
        have hval := ParseUint_value (String.mk (a :: as)) hmag
        have h1 : (some a == some '+') = false := by simp [hp]
        have h2 : (some a == some '-') = false := by simp [hm]
        simp only [h1, h2, Bool.or_false, Bool.false_eq_true, if_false, Bool.not_false,
          Bool.true_and, Bool.false_and]
        rw [hmag]
        simp only
        rw [hval]
        have hbig : ¬ 2 ^ 63 ≤ digitsValue (a :: as) := by omega
        simp only [ge_iff_le, decide_eq_true_eq]
        rw [if_neg hbig]

theorem Atoi_ok_numeral (s : String) (h : (Atoi s).2 = none) : isDecimalNumeral s = true := by
  unfold Atoi at h
  by_cases hfast : 0 < s.utf8ByteSize ∧ s.utf8ByteSize < 19
  · rw [if_pos hfast] at h
    simp only at h
    obtain ⟨data⟩ := s
    cases data with
    | nil => simp [String.utf8ByteSize, String.utf8ByteSize.go] at hfast
    | cons a as =>
      by_cases hm : a = '-'
      · subst hm
        simp only [List.head?_cons, List.tail_cons, beq_self_eq_true, Bool.true_or, if_true,
          Bool.true_and] at h
        rw [isDecimalNumeral_minus]
        by_cases hshort : as.length < 1
        · simp [hshort] at h
        · simp only [hshort, decide_False, Bool.false_eq_true, if_false] at h
          cases hl : AtoiFastLoop as 0 with
          | none =>
            rw [hl] at h
            cases h
          | some n =>
            refine (isDigits_iff as).2 ⟨?_, AtoiFastLoop_digits as 0 n hl⟩
            intro hnil
            rw [hnil] at hshort
            simp at hshort
      · by_cases hp : a = '+'
        · subst hp
          have hneg : (some '+' == some '-') = false := by decide
          simp only [List.head?_cons, List.tail_cons, beq_self_eq_true, Bool.or_true, if_true,
            Bool.true_and, hneg, Bool.false_eq_true, if_false] at h
          rw [isDecimalNumeral_plus]
          by_cases hshort : as.length < 1
          · simp [hshort] at h
          · simp only [hshort, decide_False, Bool.false_eq_true, if_false] at h
            cases hl : AtoiFastLoop as 0 with
            | none =>
              rw [hl] at h
              cases h
            | some n =>
              refine (isDigits_iff as).2 ⟨?_, AtoiFastLoop_digits as 0 n hl⟩
              intro hnil
              rw [hnil] at hshort
              simp at hshort
        · have h1 : (some a == some '+') = false := by simp [hp]
          have h2 : (some a == some '-') = false := by simp [hm]
          simp only [List.head?_cons, h1, h2, Bool.or_false, Bool.false_eq_true, if_false,
            Bool.false_and] at h
          rw [isDecimalNumeral_unsigned a as hm hp]
          cases hl : AtoiFastLoop (a :: as) 0 with
          | none =>
            rw [hl] at h
            cases h
          | some n =>
            exact (isDigits_iff (a :: as)).2 ⟨by simp, AtoiFastLoop_digits (a :: as) 0 n hl⟩
  · rw [if_neg hfast] at h
    simp only [Option.map_eq_none'] at h
    exact ParseInt_ok_numeral s h

theorem Atoi_complete (s : String) (hnum : isDecimalNumeral s = true)
    (hlo : -2 ^ 63 ≤ cellValue s) (hhi : cellValue s < 2 ^ 63) : (Atoi s).2 = none := by
  unfold Atoi
  by_cases hfast : 0 < s.utf8ByteSize ∧ s.utf8ByteSize < 19
  · rw [if_pos hfast]
    simp only
    obtain ⟨data⟩ := s
    cases data with
    | nil => simp [isDecimalNumeral, isDigits] at hnum
    | cons a as =>
      by_cases hm : a = '-'
      · subst hm
        rw [isDecimalNumeral_minus] at hnum
        obtain ⟨hne, hd⟩ := (isDigits_iff as).1 hnum
        obtain ⟨v, hv⟩ := AtoiFastLoop_complete as 0 hd
        have hshort : ¬ as.length < 1 := by
          have := List.length_pos.2 hne
          omega
        simp only [List.head?_cons, List.tail_cons, beq_self_eq_true, Bool.true_or, if_true,
          Bool.true_and, hshort, decide_False, Bool.false_eq_true, if_false, hv]
      · by_cases hp : a = '+'
        · subst hp
          rw [isDecimalNumeral_plus] at hnum
          obtain ⟨hne, hd⟩ := (isDigits_iff as).1 hnum
          obtain ⟨v, hv⟩ := AtoiFastLoop_complete as 0 hd
          have hshort : ¬ as.length < 1 := by
            have := List.length_pos.2 hne
            omega
          simp only [List.head?_cons, List.tail_cons, beq_self_eq_true, Bool.or_true, if_true,
            Bool.true_and, hshort, decide_False, Bool.false_eq_true, if_false, hv]
        · rw [isDecimalNumeral_unsigned a as hm hp] at hnum
          obtain ⟨_, hd⟩ := (isDigits_iff (a :: as)).1 hnum
          obtain ⟨v, hv⟩ := AtoiFastLoop_complete (a :: as) 0 hd
          have h1 : (some a == some '+') = false := by simp [hp]
          have h2 : (some a == some '-') = false := by simp [hm]
          simp only [List.head?_cons, h1, h2, Bool.or_false, Bool.false_eq_true, if_false,
            Bool.false_and, hv]
  · rw [if_neg hfast]
    simp only [Option.map_eq_none']
    exact ParseInt_complete s hnum hlo hhi

theorem numeral_has_digit (s : String) (h : isDecimalNumeral s = true) :
    ∃ c ∈ s.data, c.isDigit = true := by
  have hdig : ∀ cs : List Char, isDigits cs = true → ∃ c ∈ cs, c.isDigit = true := by
    intro cs hcs
    obtain ⟨hne, hd⟩ := (isDigits_iff cs).1 hcs
    cases cs with
    | nil => exact absurd rfl hne
    | cons x xs => exact ⟨x, by simp, hd x (by simp)⟩
  obtain ⟨data⟩ := s
  cases data with
  | nil => simp [isDecimalNumeral, isDigits] at h
  | cons a as =>
    by_cases hm : a = '-'
    · subst hm
      rw [isDecimalNumeral_minus] at h
      obtain ⟨c, hc, hcd⟩ := hdig as h
      exact ⟨c, by simp [hc], hcd⟩
    · by_cases hp : a = '+'
      · subst hp
        rw [isDecimalNumeral_plus] at h
        obtain ⟨c, hc, hcd⟩ := hdig as h
        exact ⟨c, by simp [hc], hcd⟩
      · rw [isDecimalNumeral_unsigned a as hm hp] at h
        exact hdig (a :: as) h

/-- C15: `strconv.Atoi` accepts a text exactly when it is an optional single
leading `+` or `-` followed by one or more ASCII decimal digits and the integer
it denotes lies in `[-2^63, 2^63 - 1]`; and a grid holding a cell with a
character that is neither a digit nor a sign (a space, a tab, a line break, a
decimal point, a comma, an underscore, ...) or a cell without any digit is
rejected by `ValidateSquareMatrix`. -/
theorem C15_cell_acceptance (Quote : String → String) (s : String) :
    ((Atoi s).2 = none ↔
      isDecimalNumeral s = true ∧ -2 ^ 63 ≤ cellValue s ∧ cellValue s ≤ 2 ^ 63 - 1) ∧
    (∀ c ∈ [' ', '\t', '\n', '\r', '.', ',', '_'],
      c.isDigit = false ∧ c ≠ '+' ∧ c ≠ '-') ∧
    (∀ (records : List (List String)) (row : List String), row ∈ records → s ∈ row →
      ((∃ c ∈ s.data, c.isDigit = false ∧ c ≠ '+' ∧ c ≠ '-') ∨
        (∀ c ∈ s.data, c.isDigit = false)) →
      ValidateSquareMatrix Quote records ≠ none) := by
  have hrej : ((∃ c ∈ s.data, c.isDigit = false ∧ c ≠ '+' ∧ c ≠ '-') ∨
      (∀ c ∈ s.data, c.isDigit = false)) → (Atoi s).2 ≠ none := by
    intro hbad hok
    rcases hbad with ⟨c, hc, hnd, hnp, hnm⟩ | hnone
    · rcases Atoi_ok_chars s hok c hc with h1 | h1 | h1
      · rw [hnd] at h1
        cases h1
      · exact hnp h1
      · exact hnm h1
    · obtain ⟨c, hc, hcd⟩ := numeral_has_digit s (Atoi_ok_numeral s hok)
      rw [hnone c hc] at hcd
      cases hcd
  refine ⟨⟨?_, ?_⟩, by decide, ?_⟩
  · intro hok
    obtain ⟨_, hlo, hhi⟩ := Atoi_value s hok
    exact ⟨Atoi_ok_numeral s hok, hlo, by omega⟩
  · rintro ⟨hnum, hlo, hhi⟩
    exact Atoi_complete s hnum hlo (by omega)
  · intro records row hrow hs hbad hvalid
    exact hrej hbad ((validate_accepts Quote records hvalid).2.2 row hrow s hs)

theorem C15_cell_acceptance_witness :
    (Atoi "-9223372036854775808").2 = none ∧ (Atoi "+0042").2 = none ∧
      (Atoi "9223372036854775808").2 ≠ none ∧ (Atoi "1 2").2 ≠ none ∧
      ValidateSquareMatrix quoteASCII [["1", "2"], ["3", "4.0"]] ≠ none :=
  ⟨((C15_cell_acceptance quoteASCII "-9223372036854775808").1).2
      ⟨by decide, by decide, by decide⟩,
    ((C15_cell_acceptance quoteASCII "+0042").1).2 ⟨by decide, by decide, by decide⟩,
    fun h => absurd (((C15_cell_acceptance quoteASCII "9223372036854775808").1).1 h).2.2
      (by decide),
    fun h => absurd (((C15_cell_acceptance quoteASCII "1 2").1).1 h).1 (by decide),
    (C15_cell_acceptance quoteASCII "4.0").2.2 [["1", "2"], ["3", "4.0"]] ["3", "4.0"]
      (by decide) (by decide) (Or.inl ⟨'.', by decide, by decide, by decide, by decide⟩)⟩


/-! ## Sum: wrap-around and the order of traversal -/

theorem wrapInt_congruent (x : Int) : (2 ^ 64 : Int) ∣ (wrapInt x - x) := by
  refine ⟨-((x + 2 ^ 63) / 2 ^ 64), ?_⟩
  unfold wrapInt
  omega

/-- C16: on a grid accepted by `ValidateSquareMatrix`, `SumHandler` raises no
error and prints the integer `v` of the signed 64-bit range
`[-2^63, 2^63 - 1]` that is congruent to the exact sum of all cells modulo
`2^64`; so `v` is the exact sum whenever the exact sum lies in that range. -/
theorem C16_sum_wraps (Quote : String → String) (records : List (List String))
    (h : ValidateSquareMatrix Quote records = none) :
    ∃ v : Int,
      SumHandler Quote (Request.records records) = Response.mk 200 (FormatInt v ++ "\n") ∧
      -2 ^ 63 ≤ v ∧ v ≤ 2 ^ 63 - 1 ∧ (2 ^ 64 : Int) ∣ (v - exactSum records) ∧
      (-2 ^ 63 ≤ exactSum records → exactSum records ≤ 2 ^ 63 - 1 → v = exactSum records) := by
  obtain ⟨hpos, _, hcells⟩ := validate_accepts Quote records h
  have hne : records.length ≠ 0 := by omega
  obtain ⟨hlo, hhi⟩ := wrapInt_range (exactSum records)
  refine ⟨wrapInt (exactSum records), ?_, hlo, by omega, wrapInt_congruent _, ?_⟩
  · unfold SumHandler ParseCSVFile
    simp only [if_neg hne, h]
    rw [writeOK, sumCells_eq records hcells]
  · intro h1 h2
    exact wrapInt_eq_self _ h1 (by omega)

theorem C16_sum_wraps_witness :
    ValidateSquareMatrix quoteASCII [["9223372036854775807", "1"], ["0", "0"]] = none ∧
      ∃ v : Int,
        SumHandler quoteASCII (Request.records [["9223372036854775807", "1"], ["0", "0"]]) =
          Response.mk 200 (FormatInt v ++ "\n") ∧
        -2 ^ 63 ≤ v ∧ v ≤ 2 ^ 63 - 1 ∧
        (2 ^ 64 : Int) ∣ (v - exactSum [["9223372036854775807", "1"], ["0", "0"]]) ∧
        (-2 ^ 63 ≤ exactSum [["9223372036854775807", "1"], ["0", "0"]] →
          exactSum [["9223372036854775807", "1"], ["0", "0"]] ≤ 2 ^ 63 - 1 →
          v = exactSum [["9223372036854775807", "1"], ["0", "0"]]) :=
  ⟨by decide,
    C16_sum_wraps quoteASCII [["9223372036854775807", "1"], ["0", "0"]] (by decide)⟩

theorem flatten_set_perm (inv : List (List String)) (idx : Nat) (col : List String)
    (num : String) (h : inv[idx]? = some col) :
    (inv.set idx (col ++ [num])).flatten.Perm (num :: inv.flatten) := by
  induction inv generalizing idx with
  | nil => simp at h
  | cons a l ih =>
    cases idx with
    | zero =>
      have ha : a = col := by simpa using h
      subst ha
      simp only [List.set_cons_zero, List.flatten_cons, List.append_assoc, List.singleton_append]
      exact List.perm_middle
    | succ k =>
      have hk : l[k]? = some col := by simpa using h
      simp only [List.set_cons_succ, List.flatten_cons]
      exact (List.Perm.append_left a (ih k hk)).trans List.perm_middle

theorem invertRow_perm (row : List String) (idx : Nat) (inv out : List (List String))
    (h : invertRow idx row inv = some out) : out.flatten.Perm (row ++ inv.flatten) := by
  induction row generalizing idx inv with
  | nil =>
    simp only [invertRow, Option.some.injEq] at h
    rw [h]
    exact List.Perm.refl _
  | cons num rest ih =>
    unfold invertRow at h
    cases hc : inv[idx]? with
    | none =>
      rw [hc] at h
      cases h
    | some col =>
      rw [hc] at h
      simp only at h
      have h1 := ih (idx + 1) _ h
      have h2 := flatten_set_perm inv idx col num hc
      exact (h1.trans (List.Perm.append_left rest h2)).trans List.perm_middle

theorem invertRows_perm (rows : List (List String)) (inv out : List (List String))
    (h : invertRows rows inv = some out) : out.flatten.Perm (rows.flatten ++ inv.flatten) := by
  induction rows generalizing inv with
  | nil =>
    simp only [invertRows, Option.some.injEq] at h
    rw [h]
    exact List.Perm.refl _
  | cons row rest ih =>
    unfold invertRows at h
    cases hr : invertRow 0 row inv with
    | none =>
      rw [hr] at h
      cases h
    | some inv1 =>
      rw [hr] at h
      simp only at h
      have h1 := ih inv1 h
      have h2 := invertRow_perm row 0 inv inv1 hr
      have h3 : (rest.flatten ++ inv1.flatten).Perm (rest.flatten ++ (row ++ inv.flatten)) :=
        List.Perm.append_left _ h2
      have h4 : (rest.flatten ++ (row ++ inv.flatten)).Perm
          ((row :: rest).flatten ++ inv.flatten) := by
        simp only [List.flatten_cons, List.append_assoc]
        rw [← List.append_assoc, ← List.append_assoc]
        exact List.Perm.append_right _ List.perm_append_comm
      exact (h1.trans h3).trans h4

/-- The cells of the matrix built by `InvertHandler` are the cells of the
input, rearranged. -/
theorem invert_perm (records out : List (List String)) (h : invert records = some out) :
    out.flatten.Perm records.flatten := by
  have h1 := invertRows_perm records (List.replicate records.length []) out h
  have h2 : (List.replicate records.length ([] : List String)).flatten = [] := by
    simp
  rw [h2, List.append_nil] at h1
  exact h1

theorem sumCells_eq_atoi (records : List (List String)) :
    sumCells records = wrapInt ((records.flatten.map (fun val => (Atoi val).1)).sum) := by
  have h0 : (0 : Int) = wrapInt 0 := by
    unfold wrapInt
    norm_num
  unfold sumCells
  rw [h0, sumRows_eq, zero_add]

/-- The converse of `validate_accepts`. -/
theorem validate_of_shape (Quote : String → String) (records : List (List String))
    (hpos : 1 ≤ records.length) (hsq : ∀ row ∈ records, row.length = records.length)
    (hcells : ∀ row ∈ records, ∀ val ∈ row, (Atoi val).2 = none) :
    ValidateSquareMatrix Quote records = none := by
  cases records with
  | nil => simp at hpos
  | cons row0 rest =>
    have hlen : row0.length = (row0 :: rest).length := hsq row0 (by simp)
    have hh : ValidateSquareMatrix.headerLoop Quote 0 row0 = none :=
      (headerLoop_eq_none_iff Quote row0 0).2 (hcells row0 (by simp))
    have hr : ValidateSquareMatrix.rowLoop Quote row0.length 0 (row0 :: rest) = none := by
      apply (rowLoop_eq_none_iff Quote row0.length (row0 :: rest) 0).2
      intro row hrow
      refine ⟨by rw [hsq row hrow, hlen], ?_⟩
      intro val hval
      exact ⟨Atoi_ok_ne_empty val (hcells row hrow val hval), hcells row hrow val hval⟩
    unfold ValidateSquareMatrix
    simp only [hh, hr]
    simp [← hlen]

/-- The transpose of an accepted grid is accepted. -/
theorem invert_accepted (Quote : String → String) (records out : List (List String))
    (h : ValidateSquareMatrix Quote records = none) (hout : invert records = some out) :
    ValidateSquareMatrix Quote out = none := by
  obtain ⟨hpos, hsq, hcells⟩ := validate_accepts Quote records h
  obtain ⟨t, ht, htlen, htrows, _⟩ := invert_square records hsq
  rw [hout] at ht
  injection ht with ht
  subst ht
  apply validate_of_shape Quote out (by omega) (by intro row hrow; rw [htrows row hrow, htlen])
  intro row hrow val hval
  have hmem : val ∈ out.flatten := List.mem_flatten.2 ⟨row, hrow, hval⟩
  have hmem2 : val ∈ records.flatten := (invert_perm records out hout).mem_iff.1 hmem
  obtain ⟨r, hr, hv⟩ := List.mem_flatten.1 hmem2
  exact hcells r hr val hv

/-- C17: for a grid `M` accepted by `ValidateSquareMatrix`, the loop of
`SumHandler` computes the same value on the transpose of `M` built by
`InvertHandler` as on `M`, wrap-around included, and `SumHandler` gives the
same response for both grids. -/
theorem C17_sum_order_independent (Quote : String → String) (records : List (List String))
    (h : ValidateSquareMatrix Quote records = none) :
    ∃ t, invert records = some t ∧ sumCells t = sumCells records ∧
      SumHandler Quote (Request.records t) = SumHandler Quote (Request.records records) := by
  obtain ⟨hpos, hsq, _⟩ := validate_accepts Quote records h
  obtain ⟨t, ht, htlen, _, _⟩ := invert_square records hsq
  have hperm := invert_perm records t ht
  have hsum : sumCells t = sumCells records := by
    rw [sumCells_eq_atoi, sumCells_eq_atoi]
    congr 1
    exact (hperm.map (fun val => (Atoi val).1)).sum_eq
  have hvt := invert_accepted Quote records t h ht
  refine ⟨t, ht, hsum, ?_⟩
  have hne : records.length ≠ 0 := by omega
  have hnet : t.length ≠ 0 := by omega
  unfold SumHandler ParseCSVFile
  simp only [if_neg hne, if_neg hnet, h, hvt, hsum]

theorem C17_sum_order_independent_witness :
    ValidateSquareMatrix quoteASCII [["9223372036854775807", "1"], ["-5", "7"]] = none ∧
      ∃ t, invert [["9223372036854775807", "1"], ["-5", "7"]] = some t ∧
        sumCells t = sumCells [["9223372036854775807", "1"], ["-5", "7"]] ∧
        SumHandler quoteASCII (Request.records t) =
          SumHandler quoteASCII (Request.records [["9223372036854775807", "1"], ["-5", "7"]]) :=
  ⟨by decide,
    C17_sum_order_independent quoteASCII [["9223372036854775807", "1"], ["-5", "7"]]
      (by decide)⟩


/-! ## ParseCSVFile, and the safety of the handlers on an accepted grid -/

/-- C18: `ParseCSVFile`, once the file part is found: when the CSV reader
yields no row it fails with exactly `failed to parse csv: file is empty`; when
the reader fails with cause `c` it fails with `failed to parse csv: ` followed
by `c`; otherwise it returns the rows of the reader unchanged, whatever their
lengths; and it returns rows in no other case. -/
theorem C18_parse_csv_file (cause : String) (rows : List (List String)) :
    ParseCSVFile (Request.records []) = Except.error "failed to parse csv: file is empty" ∧
    ParseCSVFile (Request.readAllError cause) =
      Except.error ("failed to parse csv: " ++ cause) ∧
    (rows ≠ [] → ParseCSVFile (Request.records rows) = Except.ok rows) ∧
    (∀ r : Request, ParseCSVFile r = Except.ok rows → r = Request.records rows ∧ rows ≠ []) := by
  refine ⟨rfl, rfl, ?_, ?_⟩
  · intro hne
    have hlen : rows.length ≠ 0 := fun h0 => hne (List.length_eq_zero.1 h0)
    unfold ParseCSVFile
    simp only [if_neg hlen]
  · intro r hr
    cases r with
    | formFileError c => cases hr
    | readAllError c => cases hr
    | records got =>
      unfold ParseCSVFile at hr
      by_cases hlen : got.length = 0
      · simp only [if_pos hlen] at hr
        cases hr
      · simp only [if_neg hlen] at hr
        injection hr with hr
        subst hr
        exact ⟨rfl, fun hnil => hlen (by rw [hnil]; rfl)⟩

theorem C18_parse_csv_file_witness :
    ParseCSVFile (Request.records []) = Except.error "failed to parse csv: file is empty" ∧
    ParseCSVFile (Request.readAllError "record on line 1: wrong number of fields") =
      Except.error ("failed to parse csv: " ++ "record on line 1: wrong number of fields") ∧
    ParseCSVFile (Request.records [["1", "2", "3"], ["x"], []]) =
      Except.ok [["1", "2", "3"], ["x"], []] :=
  ⟨(C18_parse_csv_file "" [["1", "2", "3"], ["x"], []]).1,
    (C18_parse_csv_file "record on line 1: wrong number of fields" []).2.1,
    (C18_parse_csv_file "" [["1", "2", "3"], ["x"], []]).2.2.1 (by decide)⟩

/-- C19: on a grid accepted by `ValidateSquareMatrix`, each call of
`strconv.Atoi` made by `SumHandler` and `MultiplyHandler` (one per cell) returns
a `nil` error together with the integer the cell denotes, so the discarded
error is never set and the two loops compute the wrapped exact sum and the
exact product. -/
theorem C19_discarded_errors_nil (Quote : String → String) (records : List (List String))
    (h : ValidateSquareMatrix Quote records = none) :
    (∀ row ∈ records, ∀ val ∈ row, (Atoi val).2 = none ∧ (Atoi val).1 = cellValue val) ∧
      sumCells records = wrapInt (exactSum records) ∧
      productCells records = exactProduct records := by
  obtain ⟨_, _, hcells⟩ := validate_accepts Quote records h
  refine ⟨?_, sumCells_eq records hcells, productCells_eq records hcells⟩
  intro row hrow val hval
  have hok := hcells row hrow val hval
  exact ⟨hok, (Atoi_value val hok).1⟩

theorem C19_discarded_errors_nil_witness :
    ValidateSquareMatrix quoteASCII [["1", "-2"], ["+3", "4"]] = none ∧
      ((∀ row ∈ [["1", "-2"], ["+3", "4"]], ∀ val ∈ row,
          (Atoi val).2 = none ∧ (Atoi val).1 = cellValue val) ∧
        sumCells [["1", "-2"], ["+3", "4"]] = wrapInt (exactSum [["1", "-2"], ["+3", "4"]]) ∧
        productCells [["1", "-2"], ["+3", "4"]] = exactProduct [["1", "-2"], ["+3", "4"]]) :=
  ⟨by decide, C19_discarded_errors_nil quoteASCII [["1", "-2"], ["+3", "4"]] (by decide)⟩

theorem invertRow_some (row : List String) (idx : Nat) (inv out : List (List String))
    (h : invertRow idx row inv = some out) :
    out.length = inv.length ∧ (row ≠ [] → idx + row.length ≤ inv.length) := by
  induction row generalizing idx inv with
  | nil =>
    simp only [invertRow, Option.some.injEq] at h
    rw [h]
    exact ⟨rfl, fun hne => absurd rfl hne⟩
  | cons num rest ih =>
    unfold invertRow at h
    cases hc : inv[idx]? with
    | none =>
      rw [hc] at h
      cases h
    | some col =>
      rw [hc] at h
      simp only at h
      obtain ⟨hlt, _⟩ := List.getElem?_eq_some.1 hc
      obtain ⟨hlen, hb⟩ := ih (idx + 1) _ h
      rw [List.length_set] at hlen hb
      refine ⟨hlen, fun _ => ?_⟩
      simp only [List.length_cons]
      cases rest with
      | nil =>
        simp only [List.length_nil]
        omega
      | cons x xs =>
        have := hb (by simp)
        simp only [List.length_cons] at this ⊢
        omega

theorem invertRows_some (rows : List (List String)) (inv out : List (List String))
    (h : invertRows rows inv = some out) : ∀ row ∈ rows, row.length ≤ inv.length := by
  induction rows generalizing inv with
  | nil => simp
  | cons row rest ih =>
    unfold invertRows at h
    cases hr : invertRow 0 row inv with
    | none =>
      rw [hr] at h
      cases h
    | some inv1 =>
      rw [hr] at h
      simp only at h
      obtain ⟨hlen, hb⟩ := invertRow_some row 0 inv inv1 hr
      intro r hrmem
      rcases List.mem_cons.1 hrmem with rfl | hrmem
      · cases r with
        | nil => simp
        | cons x xs =>
          have := hb (by simp)
          omega
      · have := ih inv1 h r hrmem
        omega

/-- C20: on a grid accepted by `ValidateSquareMatrix` every row has as many
cells as the grid has rows, so each index `idx` used in
`invertedRecords[idx]` is below `len(records)`, the loops of `InvertHandler`
run without an index out of range and the handler answers; in general the
loops run through exactly when no row is longer than the grid is tall. -/
theorem C20_invert_in_bounds (Quote : String → String) (records : List (List String))
    (h : ValidateSquareMatrix Quote records = none) :
    (∀ row ∈ records, row.length = records.length) ∧
      (∀ row ∈ records, ∀ idx : Nat, idx < row.length → idx < records.length) ∧
      (∃ out, invert records = some out) ∧
      (∃ resp, InvertHandler Quote (Request.records records) = some resp) ∧
      ∀ grid : List (List String),
        (∃ out, invert grid = some out) ↔ ∀ row ∈ grid, row.length ≤ grid.length := by
  obtain ⟨hpos, hsq, _⟩ := validate_accepts Quote records h
  obtain ⟨out, hout, _, _⟩ := invert_spec records (fun row hrow => (hsq row hrow).le)
  have hne : records.length ≠ 0 := by omega
  refine ⟨hsq, ?_, ⟨out, hout⟩, ?_, ?_⟩
  · intro row hrow idx hidx
    rw [← hsq row hrow]
    exact hidx
  · refine ⟨writeOK (buildResponse out), ?_⟩
    unfold InvertHandler ParseCSVFile
    simp only [if_neg hne, h, hout]
  · intro grid
    constructor
    · rintro ⟨t, ht⟩
      intro row hrow
      have := invertRows_some grid (List.replicate grid.length []) t ht row hrow
      simpa using this
    · intro hb
      obtain ⟨t, ht, _, _⟩ := invert_spec grid hb
      exact ⟨t, ht⟩

theorem C20_invert_in_bounds_witness :
    ValidateSquareMatrix quoteASCII [["1", "2"], ["3", "4"]] = none ∧
      ((∀ row ∈ [["1", "2"], ["3", "4"]], row.length = [["1", "2"], ["3", "4"]].length) ∧
        (∀ row ∈ [["1", "2"], ["3", "4"]], ∀ idx : Nat,
          idx < row.length → idx < [["1", "2"], ["3", "4"]].length) ∧
        (∃ out, invert [["1", "2"], ["3", "4"]] = some out) ∧
        (∃ resp, InvertHandler quoteASCII (Request.records [["1", "2"], ["3", "4"]]) =
          some resp) ∧
        ∀ grid : List (List String),
          (∃ out, invert grid = some out) ↔ ∀ row ∈ grid, row.length ≤ grid.length) :=
  ⟨by decide, C20_invert_in_bounds quoteASCII [["1", "2"], ["3", "4"]] (by decide)⟩


/-! ## The decimal rendering of row and column numbers -/

theorem digitChar_isDigit (m : Nat) (h : m < 10) : (Nat.digitChar m).isDigit = true := by
  interval_cases m <;> decide

theorem digitChar_ne_one (m : Nat) (h2 : 2 ≤ m) (h : m < 10) : Nat.digitChar m ≠ '1' := by
  interval_cases m <;> decide

theorem toDigitsCore_shape (fuel n : Nat) (ds : List Char) :
    ∃ pre, Nat.toDigitsCore 10 fuel n ds = pre ++ ds ∧ (∀ c ∈ pre, c.isDigit = true) ∧
      (1 ≤ fuel → 1 ≤ pre.length) ∧ (2 ≤ fuel → 10 ≤ n → 2 ≤ pre.length) := by
  induction fuel generalizing n ds with
  | zero =>
    refine ⟨[], rfl, by simp, ?_, ?_⟩
    · intro h
      omega
    · intro h
      omega
  | succ f ih =>
    have hd : (Nat.digitChar (n % 10)).isDigit = true :=
      digitChar_isDigit (n % 10) (Nat.mod_lt n (by norm_num))
    by_cases hq : n / 10 = 0
    · refine ⟨[Nat.digitChar (n % 10)], ?_, ?_, ?_, ?_⟩
      · simp [Nat.toDigitsCore, hq]
      · intro c hc
        rw [List.mem_singleton.1 hc]
        exact hd
      · intro _
        simp
      · intro _ h10
        omega
    · obtain ⟨pre, hpre, hdig, hlen1, _⟩ := ih (n / 10) (Nat.digitChar (n % 10) :: ds)
      refine ⟨pre ++ [Nat.digitChar (n % 10)], ?_, ?_, ?_, ?_⟩
      · simp [Nat.toDigitsCore, hq, hpre]
      · intro c hc
        rcases List.mem_append.1 hc with h1 | h1
        · exact hdig c h1
        · rw [List.mem_singleton.1 h1]
          exact hd
      · intro _
        simp
      · intro hf _
        have := hlen1 (by omega)
        simp only [List.length_append, List.length_singleton]
        omega

theorem toDigits_small (m : Nat) (h : m < 10) : Nat.toDigits 10 m = [Nat.digitChar m] := by
  have hq : m / 10 = 0 := Nat.div_eq_of_lt h
  have hr : m % 10 = m := Nat.mod_eq_of_lt h
  simp [Nat.toDigits, Nat.toDigitsCore, hq, hr]

/-- The digits of a number do not start with a non-digit character. -/
theorem toDigits_head_isDigit (m : Nat) (t : List Char) (c : Char) (rest : List Char)
    (h : Nat.toDigits 10 m ++ t = c :: rest) : c.isDigit = true := by
  obtain ⟨pre, hpre, hdig, hlen1, _⟩ := toDigitsCore_shape (m + 1) m []
  rw [List.append_nil] at hpre
  have hpre1 : Nat.toDigits 10 m = pre := hpre
  rw [hpre1] at h
  cases pre with
  | nil =>
    have := hlen1 (by omega)
    simp at this
  | cons a as =>
    simp only [List.cons_append, List.cons.injEq] at h
    rw [← h.1]
    exact hdig a (by simp)

/-- The rendering of a number `m ≥ 2`, followed by a character `sep` that is
not a digit, does not begin with `1` followed by `sep`. -/
theorem toDigits_not_one (m : Nat) (hm : 2 ≤ m) (sep : Char) (hsep : sep.isDigit = false)
    (t : List Char) : ¬ (['1', sep] <+: Nat.toDigits 10 m ++ sep :: t) := by
  intro hp
  by_cases hsmall : m < 10
  · rw [toDigits_small m hsmall] at hp
    simp only [List.singleton_append, List.cons_prefix_cons] at hp
    exact digitChar_ne_one m hm hsmall hp.1.symm
  · obtain ⟨pre, hpre, hdig, _, hlen2⟩ := toDigitsCore_shape (m + 1) m []
    rw [List.append_nil] at hpre
    have hpre1 : Nat.toDigits 10 m = pre := hpre
    have h2 := hlen2 (by omega) (by omega)
    rw [hpre1] at hp
    cases pre with
    | nil => simp at h2
    | cons a as =>
      cases as with
      | nil => simp at h2
      | cons b bs =>
        simp only [List.cons_append, List.cons_prefix_cons] at hp
        have hb : b.isDigit = true := hdig b (by simp)
        rw [← hp.2.1, hsep] at hb
        cases hb

/-! ## The shape of the validation messages -/

theorem FormatInt_succ_data (i : Nat) :
    (FormatInt ((i : Int) + 1)).data = Nat.toDigits 10 (i + 1) := rfl

theorem FormatInt_nat_data (n : Nat) : (FormatInt (n : Int)).data = Nat.toDigits 10 n := rfl

theorem headerLoop_msg (Quote : String → String) (row : List String) (j : Nat) (msg : String)
    (h : ValidateSquareMatrix.headerLoop Quote j row = some msg) :
    ∃ t, msg.data =
      "matrix has a header row or non-integer value at row 1, column ".data ++ t := by
  induction row generalizing j with
  | nil => simp [ValidateSquareMatrix.headerLoop] at h
  | cons val rest ih =>
    unfold ValidateSquareMatrix.headerLoop at h
    cases hv : (Atoi val).2 with
    | none =>
      rw [hv] at h
      exact ih (j + 1) h
    | some err =>
      rw [hv] at h
      simp only [Option.some.injEq] at h
      rw [← h]
      simp only [String.data_append, List.append_assoc]
      exact ⟨_, rfl⟩

theorem cellLoop_msg (Quote : String → String) (row : List String) (i j : Nat) (msg : String)
    (h : ValidateSquareMatrix.cellLoop Quote i j row = some msg) :
    ∃ t, msg.data = "matrix has empty value at row ".data ++ (Nat.toDigits 10 (i + 1) ++ ',' :: t) ∨
      msg.data = "matrix value at row ".data ++ (Nat.toDigits 10 (i + 1) ++ ',' :: t) := by
  induction row generalizing j with
  | nil => simp [ValidateSquareMatrix.cellLoop] at h
  | cons val rest ih =>
    unfold ValidateSquareMatrix.cellLoop at h
    by_cases hval : val = ""
    · rw [if_pos hval] at h
      simp only [Option.some.injEq] at h
      rw [← h]
      simp only [String.data_append, List.append_assoc, FormatInt_succ_data]
      exact ⟨_, Or.inl rfl⟩
    · rw [if_neg hval] at h
      cases hv : (Atoi val).2 with
      | none =>
        rw [hv] at h
        exact ih (j + 1) h
      | some err =>
        rw [hv] at h
        simp only [Option.some.injEq] at h
        rw [← h]
        simp only [String.data_append, List.append_assoc, FormatInt_succ_data]
        exact ⟨_, Or.inr rfl⟩

theorem rowLoop_msg (Quote : String → String) (n : Nat) (rows : List (List String)) (i : Nat)
    (msg : String) (h : ValidateSquareMatrix.rowLoop Quote n i rows = some msg) :
    ∃ k t, i ≤ k ∧
      (msg.data = "matrix is not square: row ".data ++ (Nat.toDigits 10 (k + 1) ++ ' ' :: t) ∨
        msg.data = "matrix has empty value at row ".data ++ (Nat.toDigits 10 (k + 1) ++ ',' :: t) ∨
        msg.data = "matrix value at row ".data ++ (Nat.toDigits 10 (k + 1) ++ ',' :: t)) := by
  induction rows generalizing i with
  | nil => simp [ValidateSquareMatrix.rowLoop] at h
  | cons row rest ih =>
    unfold ValidateSquareMatrix.rowLoop at h
    by_cases hlen : row.length ≠ n
    · rw [if_pos hlen] at h
      simp only [Option.some.injEq] at h
      rw [← h]
      simp only [String.data_append, List.append_assoc, FormatInt_succ_data]
      exact ⟨i, _, le_refl i, Or.inl rfl⟩
    · rw [if_neg hlen] at h
      cases hc : ValidateSquareMatrix.cellLoop Quote i 0 row with
      | none =>
        rw [hc] at h
        obtain ⟨k, t, hk, hmsg⟩ := ih (i + 1) h
        exact ⟨k, t, by omega, hmsg⟩
      | some e =>
        rw [hc] at h
        simp only [Option.some.injEq] at h
        rw [h] at hc
        obtain ⟨t, hmsg⟩ := cellLoop_msg Quote row i 0 msg hc
        exact ⟨i, t, le_refl i, Or.inr hmsg⟩

theorem prefix_differs (F M : List Char) (k : Nat) (c d : Char) (hF : F[k]? = some c)
    (hM : M[k]? = some d) (hne : c ≠ d) : ¬ F <+: M := by
  rintro ⟨t, ht⟩
  obtain ⟨hlt, _⟩ := List.getElem?_eq_some.1 hF
  rw [← ht, List.getElem?_append_left hlt, hF] at hM
  injection hM with hM
  exact hne hM

/-- The messages `ValidateSquareMatrix` can return: the empty-matrix message,
the header message, a per-row message for a row index `k ≥ 1`, or the message
on the number of rows. -/
theorem validate_msg_kinds (Quote : String → String) (records : List (List String))
    (msg : String) (h : ValidateSquareMatrix Quote records = some msg) :
    msg.data = "empty matrix".data ∨
    (∃ t, msg.data =
      "matrix has a header row or non-integer value at row 1, column ".data ++ t) ∨
    (∃ k t, 1 ≤ k ∧
      (msg.data = "matrix is not square: row ".data ++ (Nat.toDigits 10 (k + 1) ++ ' ' :: t) ∨
        msg.data = "matrix has empty value at row ".data ++ (Nat.toDigits 10 (k + 1) ++ ',' :: t) ∨
        msg.data = "matrix value at row ".data ++ (Nat.toDigits 10 (k + 1) ++ ',' :: t))) ∨
    (∃ r t, msg.data = "matrix is not square: ".data ++ (Nat.toDigits 10 r ++ t)) := by
  cases records with
  | nil =>
    simp only [ValidateSquareMatrix, Option.some.injEq] at h
    rw [← h]
    exact Or.inl rfl
  | cons row0 rest =>
    unfold ValidateSquareMatrix at h
    cases hh : ValidateSquareMatrix.headerLoop Quote 0 row0 with
    | some e =>
      simp only [hh, Option.some.injEq] at h
      rw [h] at hh
      exact Or.inr (Or.inl (headerLoop_msg Quote row0 0 msg hh))
    | none =>
      simp only [hh] at h
      have hcells := (headerLoop_eq_none_iff Quote row0 0).1 hh
      have hgood : ∀ row ∈ [row0],
          row.length = row0.length ∧ ∀ x ∈ row, (Atoi x).2 = none := by
        intro row hrow
        rw [List.mem_singleton.1 hrow]
        exact ⟨rfl, hcells⟩
      have hskip := rowLoop_skip_good Quote row0.length [row0] rest 0 hgood
      simp only [List.singleton_append, List.length_singleton, Nat.zero_add] at hskip
      cases hr : ValidateSquareMatrix.rowLoop Quote row0.length 0 (row0 :: rest) with
      | some e =>
        simp only [hr, Option.some.injEq] at h
        rw [h, hskip] at hr
        obtain ⟨k, t, hk, hmsg⟩ := rowLoop_msg Quote row0.length rest 1 msg hr
        exact Or.inr (Or.inr (Or.inl ⟨k, t, hk, hmsg⟩))
      | none =>
        simp only [hr] at h
        by_cases hne : (row0 :: rest).length ≠ row0.length
        · rw [if_pos hne] at h
          simp only [Option.some.injEq] at h
          rw [← h]
          simp only [String.data_append, List.append_assoc, FormatInt_nat_data]
          exact Or.inr (Or.inr (Or.inr ⟨_, _, rfl⟩))
        · rw [if_neg hne] at h
          cases h

theorem validate_skip_eq (Quote : String → String) (records : List (List String)) :
    ValidateSquareMatrixSkipRow0 Quote records = ValidateSquareMatrix Quote records := by
  cases records with
  | nil => rfl
  | cons row0 rest =>
    unfold ValidateSquareMatrixSkipRow0 ValidateSquareMatrix
    cases hh : ValidateSquareMatrix.headerLoop Quote 0 row0 with
    | some e => simp only [hh]
    | none =>
      have hcells := (headerLoop_eq_none_iff Quote row0 0).1 hh
      have hgood : ∀ row ∈ [row0],
          row.length = row0.length ∧ ∀ x ∈ row, (Atoi x).2 = none := by
        intro row hrow
        rw [List.mem_singleton.1 hrow]
        exact ⟨rfl, hcells⟩
      have hskip := rowLoop_skip_good Quote row0.length [row0] rest 0 hgood
      simp only [List.singleton_append, List.length_singleton, Nat.zero_add] at hskip
      simp only [hh, hskip]

theorem no_prefix_at (F P X : List Char) (k : Nat) (c d : Char) (hF : F[k]? = some c)
    (hP : P[k]? = some d) (hne : c ≠ d) : ¬ F <+: P ++ X := by
  obtain ⟨hlt, _⟩ := List.getElem?_eq_some.1 hP
  apply prefix_differs F (P ++ X) k c d hF _ hne
  rw [List.getElem?_append_left hlt, hP]

theorem no_prefix_row_one (P F : List Char) (sep : Char) (hsep : sep.isDigit = false)
    (k : Nat) (hk : 1 ≤ k) (t : List Char) :
    ¬ (P ++ '1' :: sep :: F) <+: P ++ (Nat.toDigits 10 (k + 1) ++ sep :: t) := by
  intro hp
  have h1 := (List.prefix_append_right_inj P).1 hp
  have h2 : ['1', sep] <+: '1' :: sep :: F := ⟨F, rfl⟩
  exact toDigits_not_one (k + 1) (by omega) sep hsep t (h2.trans h1)

/-- C21: the re-check of row 0 in the main loop of `ValidateSquareMatrix` never
fails. No message returned begins with `matrix is not square: row 1 has `, with
`matrix has empty value at row 1,` or with `matrix value at row 1,`, and the
validator whose main loop starts at the second row returns the same result on
every grid. -/
theorem C21_row0_recheck_never_fails (Quote : String → String)
    (records : List (List String)) :
    (∀ msg, ValidateSquareMatrix Quote records = some msg →
      ¬ ("matrix is not square: row 1 has ".data <+: msg.data) ∧
      ¬ ("matrix has empty value at row 1,".data <+: msg.data) ∧
      ¬ ("matrix value at row 1,".data <+: msg.data)) ∧
    ValidateSquareMatrixSkipRow0 Quote records = ValidateSquareMatrix Quote records := by
  refine ⟨?_, validate_skip_eq Quote records⟩
  intro msg hmsg
  have hspace : (' ' : Char).isDigit = false := by decide
  have hcomma : (',' : Char).isDigit = false := by decide
  rcases validate_msg_kinds Quote records msg hmsg with h | ⟨t, h⟩ | ⟨k, t, hk, h | h | h⟩ |
    ⟨r, t, h⟩
  · rw [h]
    refine ⟨?_, ?_, ?_⟩ <;> decide
  · rw [h]
    refine ⟨?_, ?_, ?_⟩
    · exact no_prefix_at _ _ t 7 'i' 'h' (by decide) (by decide) (by decide)
    · exact no_prefix_at _ _ t 11 'e' 'a' (by decide) (by decide) (by decide)
    · exact no_prefix_at _ _ t 7 'v' 'h' (by decide) (by decide) (by decide)
  · rw [h]
    refine ⟨?_, ?_, ?_⟩
    · exact no_prefix_row_one "matrix is not square: row ".data "has ".data ' ' hspace k hk t
    · exact no_prefix_at _ _ _ 7 'h' 'i' (by decide) (by decide) (by decide)
    · exact no_prefix_at _ _ _ 7 'v' 'i' (by decide) (by decide) (by decide)
  · rw [h]
    refine ⟨?_, ?_, ?_⟩
    · exact no_prefix_at _ _ _ 7 'i' 'h' (by decide) (by decide) (by decide)
    · exact no_prefix_row_one "matrix has empty value at row ".data [] ',' hcomma k hk t
    · exact no_prefix_at _ _ _ 7 'v' 'h' (by decide) (by decide) (by decide)
  · rw [h]
    refine ⟨?_, ?_, ?_⟩
    · exact no_prefix_at _ _ _ 7 'i' 'v' (by decide) (by decide) (by decide)
    · exact no_prefix_at _ _ _ 7 'h' 'v' (by decide) (by decide) (by decide)
    · exact no_prefix_row_one "matrix value at row ".data [] ',' hcomma k hk t
  · rw [h]
    refine ⟨?_, ?_, ?_⟩
    · intro hp
      have h1 : "row 1 has ".data <+: Nat.toDigits 10 r ++ t :=
        (List.prefix_append_right_inj "matrix is not square: ".data).1 hp
      obtain ⟨u, hu⟩ := h1
      have hdig := toDigits_head_isDigit r t 'r' ("ow 1 has ".data ++ u) hu.symm
      revert hdig
      decide
    · exact no_prefix_at _ _ _ 7 'h' 'i' (by decide) (by decide) (by decide)
    · exact no_prefix_at _ _ _ 7 'v' 'i' (by decide) (by decide) (by decide)

theorem C21_row0_recheck_never_fails_witness :
    ValidateSquareMatrixSkipRow0 quoteASCII [["1", "2"], ["3", ""]] =
        some "matrix has empty value at row 2, column 2" ∧
      ¬ ("matrix has empty value at row 1,".data <+:
        "matrix has empty value at row 2, column 2".data) :=
  ⟨(C21_row0_recheck_never_fails quoteASCII [["1", "2"], ["3", ""]]).2.trans (by decide),
    ((C21_row0_recheck_never_fails quoteASCII [["1", "2"], ["3", ""]]).1
      "matrix has empty value at row 2, column 2" (by decide)).2.1⟩


/-! ## Transposition keeps validity; numerals out of range -/

/-- C22: the matrix that `InvertHandler` builds from a grid accepted by
`ValidateSquareMatrix` exists and is accepted by `ValidateSquareMatrix` too. -/
theorem C22_transpose_stays_valid (Quote : String → String) (records : List (List String))
    (h : ValidateSquareMatrix Quote records = none) :
    ∃ t, invert records = some t ∧ ValidateSquareMatrix Quote t = none := by
  obtain ⟨hpos, hsq, hcells⟩ := validate_accepts Quote records h
  obtain ⟨t, ht, htlen, htrows, _⟩ := invert_square records hsq
  refine ⟨t, ht, ?_⟩
  apply validate_of_shape Quote t (by omega)
  · intro row hrow
    rw [htrows row hrow, htlen]
  · intro row hrow val hval
    have hmem : val ∈ records.flatten :=
      (invert_perm records t ht).mem_iff.1 (List.mem_flatten.2 ⟨row, hrow, hval⟩)
    obtain ⟨r, hr, hv⟩ := List.mem_flatten.1 hmem
    exact hcells r hr val hv

theorem C22_transpose_stays_valid_witness :
    ValidateSquareMatrix quoteASCII [["1", "2"], ["3", "4"]] = none ∧
      ∃ t, invert [["1", "2"], ["3", "4"]] = some t ∧ ValidateSquareMatrix quoteASCII t = none :=
  ⟨by decide, C22_transpose_stays_valid quoteASCII [["1", "2"], ["3", "4"]] (by decide)⟩

theorem ParseUintLoop_digits_err (s0 : String) (cs : List Char) (n : Nat)
    (h : ∀ c ∈ cs, c.isDigit = true) :
    (ParseUintLoop s0 cs n).2 = none ∨
      (ParseUintLoop s0 cs n).2 = some (rangeError "ParseUint" s0) := by
  induction cs generalizing n with
  | nil => exact Or.inl rfl
  | cons c cs ih =>
    have hc : c.isDigit = true := h c (by simp)
    unfold ParseUintLoop
    rw [if_pos hc]
    by_cases hcut : n ≥ maxUint64 / 10 + 1
    · rw [if_pos hcut]
      exact Or.inr rfl
    · rw [if_neg hcut]
      simp only
      by_cases hov : (n * 10 % 2 ^ 64 + (c.toNat - 48)) % 2 ^ 64 < n * 10 % 2 ^ 64 ∨
          (n * 10 % 2 ^ 64 + (c.toNat - 48)) % 2 ^ 64 > maxUint64
      · rw [if_pos hov]
        exact Or.inr rfl
      · rw [if_neg hov]
        exact ih _ (fun x hx => h x (by simp [hx]))

theorem ParseUint_digits_err (s : String) (h : ∀ c ∈ s.data, c.isDigit = true)
    (hne : s.data ≠ []) :
    (ParseUint s).2 = none ∨ (ParseUint s).2 = some (rangeError "ParseUint" s) := by
  have hs : s ≠ "" := by
    intro heq
    rw [heq] at hne
    exact hne rfl
  unfold ParseUint
  rw [if_neg hs]
  exact ParseUintLoop_digits_err s s.data 0 h

theorem numeral_magnitude_err (s : String) (hnum : isDecimalNumeral s = true) :
    s ≠ "" ∧
    ((ParseUint (if (s.data.head? == some '+' || s.data.head? == some '-') = true
        then String.mk s.data.tail else s)).2 = none ∨
      ∃ s0, (ParseUint (if (s.data.head? == some '+' || s.data.head? == some '-') = true
        then String.mk s.data.tail else s)).2 = some (rangeError "ParseUint" s0)) := by
  obtain ⟨data⟩ := s
  cases data with
  | nil => simp [isDecimalNumeral, isDigits] at hnum
  | cons a as =>
    have hs : (String.mk (a :: as)) ≠ "" := by
      intro heq
      have hdata := congrArg String.data heq
      cases hdata
    refine ⟨hs, ?_⟩
    simp only [List.head?_cons, List.tail_cons]
    by_cases hm : a = '-'
    · subst hm
      rw [isDecimalNumeral_minus] at hnum
      obtain ⟨hne, hd⟩ := (isDigits_iff as).1 hnum
      simp only [beq_self_eq_true, Bool.or_true, if_true]
      rcases ParseUint_digits_err (String.mk as) hd hne with h0 | h1
      · exact Or.inl h0
      · exact Or.inr ⟨_, h1⟩
    · by_cases hp : a = '+'
      · subst hp
        rw [isDecimalNumeral_plus] at hnum
        obtain ⟨hne, hd⟩ := (isDigits_iff as).1 hnum
        simp only [beq_self_eq_true, Bool.true_or, if_true]
        rcases ParseUint_digits_err (String.mk as) hd hne with h0 | h1
        · exact Or.inl h0
        · exact Or.inr ⟨_, h1⟩
      · rw [isDecimalNumeral_unsigned a as hm hp] at hnum
        obtain ⟨hne, hd⟩ := (isDigits_iff (a :: as)).1 hnum
        have h1 : (some a == some '+') = false := by simp [hp]
        have h2 : (some a == some '-') = false := by simp [hm]
        simp only [h1, h2, Bool.or_false, Bool.false_eq_true, if_false]
        rcases ParseUint_digits_err (String.mk (a :: as)) hd hne with h0 | h1
        · exact Or.inl h0
        · exact Or.inr ⟨_, h1⟩

theorem ParseInt_numeral_err (s : String) (hnum : isDecimalNumeral s = true) :
    (ParseInt s).2 = none ∨ (ParseInt s).2 = some (rangeError "ParseInt" s) := by
  obtain ⟨hs, hmag⟩ := numeral_magnitude_err s hnum
  unfold ParseInt
  rw [if_neg hs]
  simp only
  generalize (if (s.data.head? == some '+' || s.data.head? == some '-') = true
    then String.mk s.data.tail else s) = rest at hmag ⊢
  generalize (s.data.head? == some '-') = neg
  rcases hmag with h0 | ⟨s0, h1⟩
  · rw [h0]
    simp only
    split
    · exact Or.inr rfl
    · split
      · exact Or.inr rfl
      · exact Or.inl rfl
  · rw [h1]
    simp only [rangeError]
    split
    · exact Or.inr rfl
    · split
      · exact Or.inr rfl
      · exact Or.inl rfl

theorem Atoi_numeral_err (s : String) (hnum : isDecimalNumeral s = true) :
    (Atoi s).2 = none ∨ (Atoi s).2 = some (rangeError "Atoi" s) := by
  by_cases hfast : 0 < s.utf8ByteSize ∧ s.utf8ByteSize < 19
  · left
    unfold Atoi
    rw [if_pos hfast]
    simp only
    obtain ⟨data⟩ := s
    cases data with
    | nil => simp [isDecimalNumeral, isDigits] at hnum
    | cons a as =>
      by_cases hm : a = '-'
      · subst hm
        rw [isDecimalNumeral_minus] at hnum
        obtain ⟨hne, hd⟩ := (isDigits_iff as).1 hnum
        obtain ⟨v, hv⟩ := AtoiFastLoop_complete as 0 hd
        have hshort : ¬ as.length < 1 := by
          have := List.length_pos.2 hne
          omega
        simp only [List.head?_cons, List.tail_cons, beq_self_eq_true, Bool.true_or, if_true,
          Bool.true_and, hshort, decide_False, Bool.false_eq_true, if_false, hv]
      · by_cases hp : a = '+'
        · subst hp
          rw [isDecimalNumeral_plus] at hnum
          obtain ⟨hne, hd⟩ := (isDigits_iff as).1 hnum
          obtain ⟨v, hv⟩ := AtoiFastLoop_complete as 0 hd
          have hshort : ¬ as.length < 1 := by
            have := List.length_pos.2 hne
            omega
          simp only [List.head?_cons, List.tail_cons, beq_self_eq_true, Bool.or_true, if_true,
            Bool.true_and, hshort, decide_False, Bool.false_eq_true, if_false, hv]
        · rw [isDecimalNumeral_unsigned a as hm hp] at hnum
          obtain ⟨_, hd⟩ := (isDigits_iff (a :: as)).1 hnum
          obtain ⟨v, hv⟩ := AtoiFastLoop_complete (a :: as) 0 hd
          have h1 : (some a == some '+') = false := by simp [hp]
          have h2 : (some a == some '-') = false := by simp [hm]
          simp only [List.head?_cons, h1, h2, Bool.or_false, Bool.false_eq_true, if_false,
            Bool.false_and, hv]
  · unfold Atoi
    rw [if_neg hfast]
    simp only
    rcases ParseInt_numeral_err s hnum with h0 | h1
    · left
      rw [h0]
      rfl
    · right
      rw [h1]
      rfl

theorem rangeError_text (Quote : String → String) (s : String) :
    (rangeError "Atoi" s).Error Quote =
      "strconv.Atoi: parsing " ++ Quote s ++ ": value out of range" := by
  apply String.ext
  simp only [NumError.Error, rangeError, ConvErr.Error, String.data_append, List.append_assoc]
  rfl

/-- `ValidateSquareMatrix` on a grid whose first rejected cell of row 0 is
`val`: the header message, whatever else the grid holds. -/
theorem validate_header_first_error (Quote : String → String) (pre : List String)
    (val : String) (post : List String) (rest : List (List String)) (err : NumError)
    (hpre : ∀ x ∈ pre, (Atoi x).2 = none) (hval : (Atoi val).2 = some err) :
    ValidateSquareMatrix Quote ((pre ++ val :: post) :: rest) =
      some ("matrix has a header row or non-integer value at row 1, column "
        ++ FormatInt ((pre.length : Int) + 1) ++ ": " ++ err.Error Quote) := by
  have hloop := headerLoop_first_error Quote pre val post err 0 hpre hval
  rw [Nat.zero_add] at hloop
  unfold ValidateSquareMatrix
  simp only [hloop]

/-- `ValidateSquareMatrix` on a grid whose first rejected cell in row-major
order is the non-empty cell `val` of a row after row 0, all rows up to that one
having the length of row 0: the `is not an integer` message. -/
theorem validate_cell_first_error (Quote : String → String) (row0 : List String)
    (mid : List (List String)) (pre : List String) (val : String) (post : List String)
    (rest : List (List String)) (err : NumError)
    (h0 : ∀ x ∈ row0, (Atoi x).2 = none)
    (hmid : ∀ row ∈ mid, row.length = row0.length ∧ ∀ x ∈ row, (Atoi x).2 = none)
    (hlen : (pre ++ val :: post).length = row0.length)
    (hpre : ∀ x ∈ pre, (Atoi x).2 = none) (hval : (Atoi val).2 = some err)
    (hne : val ≠ "") :
    ValidateSquareMatrix Quote (row0 :: (mid ++ (pre ++ val :: post) :: rest)) =
      some ("matrix value at row " ++ FormatInt ((mid.length : Int) + 2) ++ ", column "
        ++ FormatInt ((pre.length : Int) + 1) ++ " is not an integer: "
        ++ err.Error Quote) := by
  have hhead : ValidateSquareMatrix.headerLoop Quote 0 row0 = none :=
    (headerLoop_eq_none_iff Quote row0 0).2 h0
  have hgood : ∀ row ∈ row0 :: mid,
      row.length = row0.length ∧ ∀ x ∈ row, (Atoi x).2 = none := by
    intro row hrow
    rcases List.mem_cons.1 hrow with rfl | hrow
    · exact ⟨rfl, h0⟩
    · exact hmid row hrow
  have hcell := cellLoop_first_error Quote pre val post err (row0 :: mid).length 0 hpre hval
  have hrowidx : ((((row0 :: mid).length : Nat) : Int) + 1) = (mid.length : Int) + 2 := by
    simp only [List.length_cons]
    push_cast
    ring
  rw [hrowidx, if_neg hne] at hcell
  simp only [Nat.zero_add] at hcell
  have hnot : ¬ (pre ++ val :: post).length ≠ row0.length := fun h => h hlen
  have hloop := rowLoop_skip_good Quote row0.length (row0 :: mid)
    ((pre ++ val :: post) :: rest) 0 hgood
  rw [Nat.zero_add, ValidateSquareMatrix.rowLoop, if_neg hnot, hcell, List.cons_append] at hloop
  unfold ValidateSquareMatrix
  simp only [hhead, hloop]

/-- C23, as the code has it: every cell of a grid accepted by
`ValidateSquareMatrix` is a decimal numeral denoting an integer of
`[-2^63, 2^63 - 1]`, `strconv.Atoi` returns that integer and `int64(num)` in
`MultiplyHandler` keeps it. A decimal numeral `s` outside that range is rejected
by `strconv.Atoi` with `value out of range` and no grid holding it is accepted;
`ValidateSquareMatrix` fails with a non-integer error naming that cell when it
is the first rejected cell: the header message when `s` is in row 0 after
accepted cells, and `matrix value at row r, column c is not an integer:` with
that cause when `s` is in a later row, every earlier cell is accepted and the
rows up to that row have the length of row 0. -/
theorem C23_cells_in_int64_range (Quote : String → String) (records : List (List String))
    (h : ValidateSquareMatrix Quote records = none) :
    (∀ row ∈ records, ∀ val ∈ row,
      isDecimalNumeral val = true ∧ -2 ^ 63 ≤ cellValue val ∧ cellValue val ≤ 2 ^ 63 - 1 ∧
        (Atoi val).1 = cellValue val ∧ int64 (Atoi val).1 = cellValue val) ∧
    (∀ s : String, isDecimalNumeral s = true →
      (cellValue s < -2 ^ 63 ∨ 2 ^ 63 - 1 < cellValue s) →
      (Atoi s).2 = some (rangeError "Atoi" s) ∧
      (rangeError "Atoi" s).Error Quote =
        "strconv.Atoi: parsing " ++ Quote s ++ ": value out of range" ∧
      (∀ (grid : List (List String)) (row : List String), row ∈ grid → s ∈ row →
        ValidateSquareMatrix Quote grid ≠ none) ∧
      (∀ (pre post : List String) (rest : List (List String)),
        (∀ x ∈ pre, (Atoi x).2 = none) →
        ValidateSquareMatrix Quote ((pre ++ s :: post) :: rest) =
          some ("matrix has a header row or non-integer value at row 1, column "
            ++ FormatInt ((pre.length : Int) + 1) ++ ": "
            ++ (rangeError "Atoi" s).Error Quote)) ∧
      (∀ (row0 : List String) (mid : List (List String)) (pre post : List String)
        (rest : List (List String)),
        (∀ x ∈ row0, (Atoi x).2 = none) →
        (∀ row ∈ mid, row.length = row0.length ∧ ∀ x ∈ row, (Atoi x).2 = none) →
        (pre ++ s :: post).length = row0.length →
        (∀ x ∈ pre, (Atoi x).2 = none) →
        ValidateSquareMatrix Quote (row0 :: (mid ++ (pre ++ s :: post) :: rest)) =
          some ("matrix value at row " ++ FormatInt ((mid.length : Int) + 2) ++ ", column "
            ++ FormatInt ((pre.length : Int) + 1) ++ " is not an integer: "
            ++ (rangeError "Atoi" s).Error Quote))) := by
  obtain ⟨_, _, hcells⟩ := validate_accepts Quote records h
  constructor
  · intro row hrow val hval
    have hok := hcells row hrow val hval
    obtain ⟨hv, hlo, hhi⟩ := Atoi_value val hok
    refine ⟨Atoi_ok_numeral val hok, hlo, by omega, hv, ?_⟩
    rw [int64, hv, wrapInt_eq_self _ hlo hhi]
  · intro s hnum hout
    have herr : (Atoi s).2 = some (rangeError "Atoi" s) := by
      rcases Atoi_numeral_err s hnum with h0 | h1
      · obtain ⟨_, hlo, hhi⟩ := Atoi_value s h0
        omega
      · exact h1
    have hne : s ≠ "" := by
      intro hs
      rw [hs] at hnum
      revert hnum
      decide
    refine ⟨herr, rangeError_text Quote s, ?_, ?_, ?_⟩
    · intro grid row hrow hs hvalid
      have hok := (validate_accepts Quote grid hvalid).2.2 row hrow s hs
      rw [herr] at hok
      cases hok
    · intro pre post rest hpre
      exact validate_header_first_error Quote pre s post rest (rangeError "Atoi" s) hpre herr
    · intro row0 mid pre post rest h0 hmid hlen hpre
      exact validate_cell_first_error Quote row0 mid pre s post rest (rangeError "Atoi" s)
        h0 hmid hlen hpre herr hne

theorem C23_cells_in_int64_range_witness :
    ValidateSquareMatrix quoteASCII
        [["9223372036854775807", "-9223372036854775808"], ["0", "+1"]] = none ∧
      (∀ row ∈ [["9223372036854775807", "-9223372036854775808"], ["0", "+1"]], ∀ val ∈ row,
        isDecimalNumeral val = true ∧ -2 ^ 63 ≤ cellValue val ∧ cellValue val ≤ 2 ^ 63 - 1 ∧
          (Atoi val).1 = cellValue val ∧ int64 (Atoi val).1 = cellValue val) ∧
      (Atoi "9223372036854775808").2 = some (rangeError "Atoi" "9223372036854775808") ∧
      ValidateSquareMatrix quoteASCII
          ((["1"] ++ "9223372036854775808" :: []) :: [["3"]]) =
        some ("matrix has a header row or non-integer value at row 1, column 2: "
          ++ "strconv.Atoi: parsing \"9223372036854775808\": value out of range") ∧
      ValidateSquareMatrix quoteASCII
          (["1", "2"] :: ([] ++ (["7"] ++ "9223372036854775808" :: []) :: [["x"]])) =
        some ("matrix value at row 2, column 2 is not an integer: "
          ++ "strconv.Atoi: parsing \"9223372036854775808\": value out of range") :=
  ⟨by decide,
    (C23_cells_in_int64_range quoteASCII
      [["9223372036854775807", "-9223372036854775808"], ["0", "+1"]] (by decide)).1,
    ((C23_cells_in_int64_range quoteASCII
      [["9223372036854775807", "-9223372036854775808"], ["0", "+1"]] (by decide)).2
      "9223372036854775808" (by decide) (Or.inr (by decide))).1,
    ((C23_cells_in_int64_range quoteASCII
      [["9223372036854775807", "-9223372036854775808"], ["0", "+1"]] (by decide)).2
      "9223372036854775808" (by decide) (Or.inr (by decide))).2.2.2.1 ["1"] [] [["3"]]
      (by decide),
    ((C23_cells_in_int64_range quoteASCII
      [["9223372036854775807", "-9223372036854775808"], ["0", "+1"]] (by decide)).2
      "9223372036854775808" (by decide) (Or.inr (by decide))).2.2.2.2 ["1", "2"] [] ["7"] []
      [["x"]] (by decide) (by simp) (by decide) (by decide)⟩

/-- C23 as stated fails on the kind of error: the grid
`1,2 / 3 / 9223372036854775808,4` holds a decimal numeral above `2^63 - 1`, and
`ValidateSquareMatrix` fails on the length of the second row with
`matrix is not square: row 2 has 1 columns, expected 2`, which is not a
non-integer error. -/
theorem C23_out_of_range_counterexample :
    isDecimalNumeral "9223372036854775808" = true ∧
      2 ^ 63 - 1 < cellValue "9223372036854775808" ∧
      "9223372036854775808" ∈ (["9223372036854775808", "4"] : List String) ∧
      ["9223372036854775808", "4"] ∈
        ([["1", "2"], ["3"], ["9223372036854775808", "4"]] : List (List String)) ∧
      ValidateSquareMatrix quoteASCII [["1", "2"], ["3"], ["9223372036854775808", "4"]] =
        some "matrix is not square: row 2 has 1 columns, expected 2" ∧
      ¬ ("not an integer".data <:+:
        "matrix is not square: row 2 has 1 columns, expected 2".data) ∧
      ¬ ("non-integer".data <:+:
        "matrix is not square: row 2 has 1 columns, expected 2".data) := by
  refine ⟨by decide, by decide, by decide, by decide, by decide, by decide, by decide⟩

end League
